import Mathlib

/-!
# The XKCD comic service

A shallow embedding of `src/services/xkcdService.js` (the class `XKCDService`) together with
the part of JavaScript it relies on: the coercions `ToBoolean`, `ToNumber`, `ToString`, the
built-ins `isNaN`, `Number.isInteger`, `parseInt`, `String.prototype.includes`,
`Array.prototype.slice`, the `node-cache` store with its time to live, and `fetch` as an
oracle from URLs to outcomes.

Conventions of the embedding.

* A finite Number is modelled by its exact value in `ℚ`, and `-0` is not distinguished from
  `0`. The counter of the loop of `search` is rounded to binary64 at every step (`toBinary64`);
  the other arithmetic is exact. The text of a Number follows `Number::toString`: plain digits
  for an integer below `10^21`, exponential form from there on.
* `String.prototype.toLowerCase` is a parameter `toLowerCase` of the methods that use it.
* Strings are Lean strings (sequences of code points); `length` counts UTF-16 code units, as
  JavaScript does.
* An asynchronous method is a function from the state before the call to an outcome and the
  state after it. The state is the cache plus a log of the cache and network events so far.
  A call happens at one time `now` (in milliseconds), against one upstream.
* The calls of `getById` that `search` starts in its loop are modelled in two phases, as the
  event loop runs them: every call first runs up to its request (guard, cache lookup,
  `fetch`), and only then are the calls completed (cache writes).
* An upstream payload has the shape of the xkcd JSON: `num` an integer, the other fields
  strings, `transcript`, `news` and `link` possibly absent.
-/

namespace XKCDService

/-! ## JavaScript numbers and values -/

/-- A JavaScript Number: `NaN`, `Infinity` or `-Infinity`, or a finite value. -/
inductive JSNum where
  | nan
  | inf (neg : Bool)
  | fin (q : ℚ)
  deriving DecidableEq

/-- A JavaScript value. An object is represented by what its conversions yield: `asNumber` is
the result of `ToNumber` on it and `asString` the result of `ToString` (for the array `[5]`
these are `5` and `"5"`). Symbols and BigInts are not represented. -/
inductive JSVal where
  | undefined
  | null
  | bool (b : Bool)
  | num (n : JSNum)
  | str (s : String)
  | obj (asNumber : JSNum) (asString : String)
  deriving DecidableEq

/-- The white space and line terminator code points that `parseInt`, `Number` and `trim`
strip. -/
def isWhiteSpace (c : Char) : Bool :=
  let n := c.toNat
  n = 9 || n = 10 || n = 11 || n = 12 || n = 13 || n = 32 || n = 160 || n = 0x1680 ||
  (0x2000 ≤ n && n ≤ 0x200A) || n = 0x2028 || n = 0x2029 || n = 0x202F || n = 0x205F ||
  n = 0x3000 || n = 0xFEFF

/-- Drop leading white space. -/
def trimStart (cs : List Char) : List Char := cs.dropWhile isWhiteSpace

/-- Drop trailing white space. -/
def trimEnd (cs : List Char) : List Char := (cs.reverse.dropWhile isWhiteSpace).reverse

/-- The value of `c` as a digit in the given radix, if it is one. -/
def digitVal (radix : Nat) (c : Char) : Option Nat :=
  let n := c.toNat
  let v : Option Nat :=
    if 48 ≤ n ∧ n ≤ 57 then some (n - 48)
    else if 97 ≤ n ∧ n ≤ 122 then some (n - 87)
    else if 65 ≤ n ∧ n ≤ 90 then some (n - 55)
    else none
  v.filter (fun d => d < radix)

/-- Split off the longest leading run of digits of the given radix. -/
def takeDigits (radix : Nat) : List Char → List Nat × List Char
  | [] => ([], [])
  | c :: cs =>
    match digitVal radix c with
    | some d => (d :: (takeDigits radix cs).1, (takeDigits radix cs).2)
    | none => ([], c :: cs)

/-- The number written by a list of digits, most significant first. -/
def digitsValue (radix : Nat) (ds : List Nat) : Nat :=
  ds.foldl (fun a d => radix * a + d) 0

/-- Split off a leading sign: `true` for `-`. -/
def takeSign : List Char → Bool × List Char
  | '-' :: t => (true, t)
  | '+' :: t => (false, t)
  | cs => (false, cs)

/-- The exponent part of a decimal literal, after the `e`: an optional sign and digits up to
the end of the text. -/
def parseExponent (cs : List Char) : Option Int :=
  match takeDigits 10 (takeSign cs).2 with
  | ([], _) => none
  | (ds, []) => some (if (takeSign cs).1 then -(digitsValue 10 ds : Int) else digitsValue 10 ds)
  | _ => none

/-- Multiply by a power of ten, the exponent possibly negative. -/
def scale10 (m : ℚ) (e : Int) : ℚ :=
  if 0 ≤ e then m * 10 ^ e.toNat else m / 10 ^ (-e).toNat

/-- An unsigned decimal literal (`12`, `12.`, `.5`, `1.5e3`), covering the whole text. -/
def parseDecimal (cs : List Char) : Option ℚ :=
  let ip := takeDigits 10 cs
  let fp : List Nat × List Char :=
    match ip.2 with
    | '.' :: t => takeDigits 10 t
    | r => ([], r)
  if ip.1 = [] ∧ fp.1 = [] then none
  else
    let e : Option Int :=
      match fp.2 with
      | [] => some 0
      | 'e' :: t => parseExponent t
      | 'E' :: t => parseExponent t
      | _ => none
    e.map (fun e => scale10 (digitsValue 10 (ip.1 ++ fp.1)) (e - fp.1.length))

/-- The digits after a radix marker (`0x`, `0o`, `0b`) must be non-empty and reach the end. -/
def radixLiteral (radix : Nat) (cs : List Char) : JSNum :=
  match takeDigits radix cs with
  | ([], _) => .nan
  | (ds, []) => .fin (digitsValue radix ds)
  | _ => .nan

/-- `StringToNumber`: what `Number(s)` yields for a string. -/
def stringToNumber (s : String) : JSNum :=
  match trimEnd (trimStart s.data) with
  | [] => .fin 0
  | '0' :: 'x' :: t => radixLiteral 16 t
  | '0' :: 'X' :: t => radixLiteral 16 t
  | '0' :: 'o' :: t => radixLiteral 8 t
  | '0' :: 'O' :: t => radixLiteral 8 t
  | '0' :: 'b' :: t => radixLiteral 2 t
  | '0' :: 'B' :: t => radixLiteral 2 t
  | cs =>
    if (takeSign cs).2 = "Infinity".data then .inf (takeSign cs).1
    else
      match parseDecimal (takeSign cs).2 with
      | some q => .fin (if (takeSign cs).1 then -q else q)
      | none => .nan

/-- Decimal digits of `n`, most significant first; `fuel` bounds the number of digits. -/
def decDigitsAux : Nat → Nat → List Nat → List Nat
  | 0, _, acc => acc
  | fuel + 1, n, acc =>
    if n < 10 then n :: acc else decDigitsAux fuel (n / 10) (n % 10 :: acc)

/-- Decimal digits of `n`, most significant first (`[0]` for zero). -/
def decDigits (n : Nat) : List Nat := decDigitsAux (n + 1) n []

/-- The character of a decimal digit. -/
def digitChar (d : Nat) : Char := Char.ofNat (48 + d)

/-- A natural number in decimal. -/
def natToString (n : Nat) : String := String.mk ((decDigits n).map digitChar)

/-- Remove the zeros at the end of a digit list. -/
def stripTrailingZeros (ds : List Nat) : List Nat :=
  (ds.reverse.dropWhile (fun d => d = 0)).reverse

/-- Exponential form `d.ddde+N`, which `Number::toString` uses from `10^21` on. The digits are
those of the exact value, without its trailing zeros. -/
def expToString (n : Nat) : String :=
  match stripTrailingZeros (decDigits n) with
  | [] => "0"
  | d :: rest =>
    String.mk (digitChar d :: (if rest = [] then [] else '.' :: rest.map digitChar))
      ++ "e+" ++ natToString ((decDigits n).length - 1)

/-- The text of a non-negative integer Number: plain digits below `10^21`, exponential form
from there on. -/
def magToString (n : Nat) : String :=
  if n < 10 ^ 21 then natToString n else expToString n

/-- Up to `fuel` decimal digits of the fraction `r / d`. -/
def fracDigits : Nat → Nat → Nat → List Nat
  | 0, _, _ => []
  | fuel + 1, r, d => if r = 0 then [] else (10 * r / d) :: fracDigits fuel (10 * r % d) d

/-- For a finite non-zero `q` of magnitude below one, the least `n` with `1 ≤ |q| * 10^n`. -/
def smallExponent (q : ℚ) : Nat :=
  ((List.range ((decDigits q.den).length + 1)).find? (fun n => decide (1 ≤ |q| * 10 ^ n))).getD 0

/-- The text of a finite Number that is not an integer. From `10^-6` on: integer part, point,
and the first digits of the fraction. Below: exponential form `d.ddde-N`. The digits are those
of the exact value, up to twenty of them (JavaScript prints the shortest digits that identify
the binary64 value; the integer part is the same). -/
def fractionToString (q : ℚ) : String :=
  (if q < 0 then "-" else "") ++
    (if |q| < 1 / 10 ^ 6 then
      let n := smallExponent q
      let m := |q| * 10 ^ n
      let rest := fracDigits 20 (m.num.natAbs % m.den) m.den
      natToString (m.num.natAbs / m.den) ++
        String.mk (if rest = [] then [] else '.' :: rest.map digitChar) ++ "e-" ++ natToString n
    else
      natToString (q.num.natAbs / q.den) ++ "." ++
        String.mk ((fracDigits 20 (q.num.natAbs % q.den) q.den).map digitChar))

/-- `Number::toString` in radix ten. -/
def numberToString : JSNum → String
  | .nan => "NaN"
  | .inf false => "Infinity"
  | .inf true => "-Infinity"
  | .fin q =>
    if q.den = 1 then (if q.num < 0 then "-" else "") ++ magToString q.num.natAbs
    else fractionToString q

/-- `ToString`. -/
def toStr : JSVal → String
  | .undefined => "undefined"
  | .null => "null"
  | .bool true => "true"
  | .bool false => "false"
  | .num n => numberToString n
  | .str s => s
  | .obj _ s => s

/-- `ToNumber`. -/
def toNumber : JSVal → JSNum
  | .undefined => .nan
  | .null => .fin 0
  | .bool true => .fin 1
  | .bool false => .fin 0
  | .num n => n
  | .str s => stringToNumber s
  | .obj n _ => n

/-- `ToBoolean`: the falsy values are `undefined`, `null`, `false`, `0`, `NaN` and `""`. -/
def toBoolean : JSVal → Bool
  | .undefined => false
  | .null => false
  | .bool b => b
  | .num .nan => false
  | .num (.inf _) => true
  | .num (.fin q) => decide (q ≠ 0)
  | .str s => decide (s ≠ "")
  | .obj _ _ => true

/-- The global `isNaN(v)`. -/
def isNaN (v : JSVal) : Bool :=
  match toNumber v with
  | .nan => true
  | _ => false

/-- The comparison `a < b` on Numbers; false when either is `NaN`. -/
def JSNum.lt : JSNum → JSNum → Bool
  | .nan, _ => false
  | _, .nan => false
  | .inf true, .inf true => false
  | .inf true, _ => true
  | _, .inf true => false
  | .inf false, _ => false
  | .fin _, .inf false => true
  | .fin a, .fin b => decide (a < b)

/-- `Number.isInteger`. -/
def isInteger : JSNum → Bool
  | .fin q => decide (q.den = 1)
  | _ => false

/-- Whether the text begins with the hexadecimal marker `0x` or `0X`. -/
def hexMarker : List Char → Bool
  | '0' :: 'x' :: _ => true
  | '0' :: 'X' :: _ => true
  | _ => false

/-- `parseInt(text)` without a radix argument: leading white space, a sign, an optional `0x`,
then the longest run of digits; `NaN` when there is none. -/
def parseIntChars (cs : List Char) : JSNum :=
  let s := takeSign (trimStart cs)
  let radix := if hexMarker s.2 then 16 else 10
  let body := if hexMarker s.2 then s.2.drop 2 else s.2
  match (takeDigits radix body).1 with
  | [] => .nan
  | d :: ds =>
    .fin (if s.1 then -(digitsValue radix (d :: ds) : ℚ) else digitsValue radix (d :: ds))

/-- `parseInt(v)`: the argument is first converted with `ToString`. -/
def parseInt (v : JSVal) : JSNum := parseIntChars (toStr v).data

/-- The arithmetic negation of a Number. -/
def JSNum.neg : JSNum → JSNum
  | .nan => .nan
  | .inf b => .inf (!b)
  | .fin q => .fin (-q)

/-- The sum `a + b` of two Numbers. -/
def JSNum.add : JSNum → JSNum → JSNum
  | .nan, _ => .nan
  | _, .nan => .nan
  | .inf a, .inf b => if a = b then .inf a else .nan
  | .inf a, .fin _ => .inf a
  | .fin _, .inf b => .inf b
  | .fin a, .fin b => .fin (a + b)

/-- The difference `a - b` of two Numbers. -/
def JSNum.sub (a b : JSNum) : JSNum := a.add b.neg

/-- The product `a * b` of two Numbers. -/
def JSNum.mul : JSNum → JSNum → JSNum
  | .nan, _ => .nan
  | _, .nan => .nan
  | .inf a, .inf b => .inf (a != b)
  | .inf a, .fin q => if q = 0 then .nan else .inf (a != decide (q < 0))
  | .fin q, .inf b => if q = 0 then .nan else .inf (b != decide (q < 0))
  | .fin a, .fin b => .fin (a * b)

/-- The quotient `a / b` of two Numbers. -/
def JSNum.div : JSNum → JSNum → JSNum
  | .nan, _ => .nan
  | _, .nan => .nan
  | .inf _, .inf _ => .nan
  | .inf a, .fin q => .inf (a != decide (q < 0))
  | .fin _, .inf _ => .fin 0
  | .fin p, .fin q =>
    if q = 0 then (if p = 0 then .nan else .inf (decide (p < 0))) else .fin (p / q)

/-- `Math.ceil`. -/
def JSNum.ceil : JSNum → JSNum
  | .fin q => .fin ⌈q⌉
  | x => x

/-- The operator `typeof`. -/
def typeOf : JSVal → String
  | .undefined => "undefined"
  | .null => "object"
  | .bool _ => "boolean"
  | .num _ => "number"
  | .str _ => "string"
  | .obj _ _ => "object"

/-- The `length` of a string: its number of UTF-16 code units. -/
def jsLength (s : String) : Nat :=
  (s.data.map (fun c => if c.toNat < 0x10000 then 1 else 2)).sum

/-- Whether the text `s` begins with `p`. -/
def startsWith : List Char → List Char → Bool
  | _, [] => true
  | [], _ :: _ => false
  | c :: s, d :: p => c = d && startsWith s p

/-- Whether `q` occurs in `s` as a contiguous run. -/
def includesChars : List Char → List Char → Bool
  | [], q => decide (q = [])
  | c :: s, q => startsWith (c :: s) q || includesChars s q

/-- `String.prototype.includes`. -/
def includes (s q : String) : Bool := includesChars s.data q.data

/-- What `String.prototype.toLowerCase` is on ASCII text: the letters `A` to `Z` are folded,
every other character is kept. The methods below take the lower-casing of strings as a
parameter `toLowerCase`, which stands for the built-in with its Unicode tables; this function
is used to run them on sample data, which is ASCII. -/
def asciiLowerCase (s : String) : String := String.mk (s.data.map Char.toLower)

/-- The number of halvings that bring `n` below `2^53`: the bits of `n` beyond the 53 that a
binary64 significand holds. -/
def excessBits : Nat → Nat → Nat
  | 0, _ => 0
  | fuel + 1, n => if n < 2 ^ 53 then 0 else excessBits fuel (n / 2) + 1

/-- The binary64 value nearest to the natural number `n`, ties going to the even significand
(for magnitudes that binary64 holds, below `2^1024`). -/
def roundNat (n : Nat) : Nat :=
  let e := excessBits n n
  let m := n / 2 ^ e
  let r := n % 2 ^ e
  if 2 * r < 2 ^ e then m * 2 ^ e
  else if 2 ^ e < 2 * r then (m + 1) * 2 ^ e
  else if m % 2 = 0 then m * 2 ^ e else (m + 1) * 2 ^ e

/-- The binary64 value nearest to an integer: what a sum or difference of integer Numbers
evaluates to. It is the integer itself up to `2^53` in magnitude. -/
def toBinary64 (z : Int) : Int :=
  if z < 0 then -(roundNat z.natAbs : Int) else roundNat z.natAbs

/-- Truncation of a finite Number towards zero. -/
def truncate (q : ℚ) : Int := if q < 0 then ⌈q⌉ else ⌊q⌋

/-- The position an argument of `slice` denotes in an array of length `len`: the argument is
truncated to an integer (`NaN` counting as zero), a negative one counts from the end, and the
result is clamped to `0..len`. -/
def relIndex (len : Nat) : JSNum → Nat
  | .nan => 0
  | .inf true => 0
  | .inf false => len
  | .fin q =>
    if truncate q < 0 then ((len : Int) + truncate q).toNat else min (truncate q).toNat len

/-- `Array.prototype.slice(start, stop)`. -/
def slice {α : Type} (xs : List α) (start stop : JSNum) : List α :=
  (xs.drop (relIndex xs.length start)).take
    (relIndex xs.length stop - relIndex xs.length start)

/-! ## Records -/

/-- The JSON document the upstream serves for one comic. -/
structure UpstreamComic where
  num : Int
  title : String
  safe_title : String
  year : String
  month : String
  day : String
  img : String
  alt : String
  transcript : Option String
  news : Option String
  link : Option String
  deriving DecidableEq

/-- The record the service returns and caches. -/
structure Comic where
  id : Int
  title : String
  safe_title : String
  date : String
  img : String
  alt : String
  transcript : String
  news : String
  link : String
  num : Int
  year : String
  month : String
  day : String
  deriving DecidableEq

/-- The expression `x || ''` on an optional string field: a truthy (non-empty) string is
kept, anything else gives the empty string. -/
def orEmpty : Option String → String
  | some s => if s ≠ "" then s else ""
  | none => ""

/-- The method `processComic`. -/
def processComic (comicData : UpstreamComic) : Comic :=
  { id := comicData.num
    title := comicData.title
    safe_title := comicData.safe_title
    date := comicData.year ++ "-" ++ comicData.month ++ "-" ++ comicData.day
    img := comicData.img
    alt := comicData.alt
    transcript := orEmpty comicData.transcript
    news := orEmpty comicData.news
    link := orEmpty comicData.link
    num := comicData.num
    year := comicData.year
    month := comicData.month
    day := comicData.day }

/-! ## The cache and the upstream -/

/-- A cache entry: the value and the time (in milliseconds) at which it expires; `0` stands
for an entry that never expires. -/
structure Entry where
  v : Comic
  t : Nat
  deriving DecidableEq

/-- The store of a `NodeCache`. -/
abbrev Store := String → Option Entry

/-- The option `stdTTL: 3600` (seconds) of the constructor. -/
def stdTTL : Nat := 3600

/-- `NodeCache.get` at time `now`: an entry past its expiry time is deleted and reported as
missing. -/
def Store.get (c : Store) (now : Nat) (key : String) : Option Comic × Store :=
  match c key with
  | none => (none, c)
  | some e =>
    if e.t ≠ 0 ∧ e.t < now then (none, fun k => if k = key then none else c k)
    else (some e.v, c)

/-- `NodeCache.set` at time `now`, with the standard time to live. -/
def Store.set (c : Store) (now : Nat) (key : String) (v : Comic) : Store :=
  fun k => if k = key then some ⟨v, now + stdTTL * 1000⟩ else c k

/-- What the service does to the outside world. -/
inductive Event where
  | cacheGet (key : String)
  | cacheSet (key : String)
  | fetch (url : String)
  deriving DecidableEq

/-- The state of the service: its cache, and the events so far. -/
structure State where
  cache : Store
  log : List Event

/-- Log an event. -/
def State.emit (s : State) (e : Event) : State := ⟨s.cache, s.log ++ [e]⟩

/-- The number of upstream fetches in a log. -/
def fetchCount (log : List Event) : Nat :=
  (log.filter (fun e => match e with | .fetch _ => true | _ => false)).length

/-- An HTTP response: `status`, the flag `ok`, and what `json()` resolves to (or the message
it rejects with). -/
structure Response where
  status : Nat
  ok : Bool
  json : Except String UpstreamComic

/-- What the promise returned by `fetch` settles to: a rejection (a transport failure, with its
message) or a response. -/
inductive FetchOutcome where
  | rejected (message : String)
  | resolved (r : Response)

/-- The upstream, as seen through `fetch`. -/
abbrev Upstream := String → FetchOutcome

/-- The field `baseUrl`. -/
def baseUrl : String := "https://xkcd.com"

/-! ## getLatest -/

/-- The `try` block of `getLatest`. -/
def getLatestTry (o : FetchOutcome) : Except String Comic :=
  match o with
  | .rejected m => .error m
  | .resolved response =>
    if !response.ok then .error "Failed to fetch latest comic"
    else
      match response.json with
      | .error m => .error m
      | .ok data => .ok (processComic data)

/-- The `catch` block of `getLatest`, as a map on the message thrown. -/
def getLatestCatch (message : String) : String :=
  if message = "Failed to fetch latest comic" then message
  else "Failed to fetch latest comic: " ++ message

/-- The method `getLatest`. -/
def getLatest (fetch : Upstream) (now : Nat) (s : State) : Except String Comic × State :=
  let cacheKey := "comic-latest"
  let s1 : State := ⟨(s.cache.get now cacheKey).2, s.log ++ [.cacheGet cacheKey]⟩
  match (s.cache.get now cacheKey).1 with
  | some cached => (.ok cached, s1)
  | none =>
    let url := baseUrl ++ "/info.0.json"
    match getLatestTry (fetch url) with
    | .ok processedComic =>
      (.ok processedComic,
        ⟨s1.cache.set now cacheKey processedComic, s1.log ++ [.fetch url, .cacheSet cacheKey]⟩)
    | .error m => (.error (getLatestCatch m), s1.emit (.fetch url))

/-! ## getById -/

/-- The guard of `getById`:
`!id || isNaN(id) || id < 1 || !Number.isInteger(Number(id))`. -/
def invalidId (id : JSVal) : Bool :=
  !toBoolean id || isNaN id || (toNumber id).lt (.fin 1) || !isInteger (toNumber id)

/-- The cache key `comic-<numericId>`. -/
def comicKey (numericId : JSNum) : String := "comic-" ++ numberToString numericId

/-- The URL of the comic with the given id. -/
def comicUrl (numericId : JSNum) : String :=
  baseUrl ++ "/" ++ numberToString numericId ++ "/info.0.json"

/-- A call of `getById` at its first `await`: either it has already settled (the guard threw,
or the cache answered), or it has issued its request and waits for the outcome. -/
inductive Pending where
  | settled (r : Except String Comic)
  | awaiting (numericId : JSNum) (o : FetchOutcome)

/-- The part of `getById` that runs before its first `await`: the guard, the cache lookup and
the call of `fetch`. -/
def getByIdStart (fetch : Upstream) (now : Nat) (s : State) (id : JSVal) : Pending × State :=
  if invalidId id then (.settled (.error "Invalid comic ID"), s)
  else
    let numericId := parseInt id
    let cacheKey := comicKey numericId
    let s1 : State := ⟨(s.cache.get now cacheKey).2, s.log ++ [.cacheGet cacheKey]⟩
    match (s.cache.get now cacheKey).1 with
    | some cached => (.settled (.ok cached), s1)
    | none =>
      (.awaiting numericId (fetch (comicUrl numericId)), s1.emit (.fetch (comicUrl numericId)))

/-- The `try` block of `getById`, from the outcome of the request on. -/
def getByIdTry (numericId : JSNum) (o : FetchOutcome) : Except String Comic :=
  match o with
  | .rejected m => .error m
  | .resolved response =>
    if response.status = 404 then .error "Comic not found"
    else if !response.ok then .error ("Failed to fetch comic " ++ numberToString numericId)
    else
      match response.json with
      | .error m => .error m
      | .ok data => .ok (processComic data)

/-- The `catch` block of `getById`, as a map on the message thrown. -/
def getByIdCatch (numericId : JSNum) (message : String) : String :=
  if message = "Comic not found" then message
  else "Failed to fetch comic " ++ numberToString numericId ++ ": " ++ message

/-- The part of `getById` that runs once the request has settled. -/
def getByIdFinish (now : Nat) (p : Pending) (s : State) : Except String Comic × State :=
  match p with
  | .settled r => (r, s)
  | .awaiting numericId o =>
    match getByIdTry numericId o with
    | .ok processedComic =>
      (.ok processedComic,
        ⟨s.cache.set now (comicKey numericId) processedComic,
          s.log ++ [.cacheSet (comicKey numericId)]⟩)
    | .error m => (.error (getByIdCatch numericId m), s)

/-- The method `getById`. -/
def getById (fetch : Upstream) (now : Nat) (s : State) (id : JSVal) :
    Except String Comic × State :=
  getByIdFinish now (getByIdStart fetch now s id).1 (getByIdStart fetch now s id).2

/-! ## getRandom -/

/-- The expression `Math.floor(Math.random() * latest.num) + 1`, for the draw `r`. -/
def randomId (r : ℚ) (num : Int) : Int := ⌊r * num⌋ + 1

/-- The method `getRandom`, for the draw `r` of `Math.random()`. -/
def getRandom (fetch : Upstream) (now : Nat) (r : ℚ) (s : State) :
    Except String Comic × State :=
  match getLatest fetch now s with
  | (.error m, s1) => (.error ("Failed to fetch random comic: " ++ m), s1)
  | (.ok latest, s1) =>
    match getById fetch now s1 (.num (.fin (randomId r latest.num))) with
    | (.error m, s2) => (.error ("Failed to fetch random comic: " ++ m), s2)
    | (.ok comic, s2) => (.ok comic, s2)

/-! ## search -/

/-- The guard of `search`:
`!query || typeof query !== 'string' || query.length < 1 || query.length > 100`. -/
def queryInvalid (query : JSVal) : Bool :=
  !toBoolean query || decide (typeOf query ≠ "string") ||
    decide (jsLength (toStr query) < 1) || decide (100 < jsLength (toStr query))

/-- The loop `for (let id = startId; id <= maxId; id++)`, collecting the ids visited. The
counter is a Number: `id++` leaves the binary64 value nearest to `id + 1`. The loop is run for
at most `fuel` tests of its condition; `none` means that it has not ended by then. -/
def forIds : Nat → Int → Int → Option (List Int)
  | 0, _, _ => none
  | fuel + 1, id, maxId =>
    if id ≤ maxId then (forIds fuel (toBinary64 (id + 1)) maxId).map (fun ids => id :: ids)
    else some []

/-- The ids the loop of `search` visits, from `startId = Math.max(1, maxId - 99)` on. -/
def searchIds (fuel : Nat) (maxId : Int) : Option (List Int) :=
  forIds fuel (max 1 (toBinary64 (maxId - 99))) maxId

/-- The loop of `search`: every `getById(id)` runs up to its first `await`. -/
def startAll (fetch : Upstream) (now : Nat) : State → List Int → List Pending × State
  | s, [] => ([], s)
  | s, id :: ids =>
    ((getByIdStart fetch now s (.num (.fin id))).1 ::
        (startAll fetch now (getByIdStart fetch now s (.num (.fin id))).2 ids).1,
      (startAll fetch now (getByIdStart fetch now s (.num (.fin id))).2 ids).2)

/-- `Promise.all` over the calls `getById(id).catch(() => null)`: each call runs to its end,
a failed one yields `null`. The calls are completed in the order of their ids. -/
def finishAll (now : Nat) : State → List Pending → List (Option Comic) × State
  | s, [] => ([], s)
  | s, p :: ps =>
    ((match (getByIdFinish now p s).1 with
        | .ok comic => some comic
        | .error _ => none) :: (finishAll now (getByIdFinish now p s).2 ps).1,
      (finishAll now (getByIdFinish now p s).2 ps).2)

/-- The filter of `search`: the query occurs in the lower-cased title, or in the transcript
or the alternative text when these are present. -/
def comicMatches (toLowerCase : String → String) (searchQuery : String) (comic : Comic) :
    Bool :=
  includes (toLowerCase comic.title) searchQuery ||
    (decide (comic.transcript ≠ "") && includes (toLowerCase comic.transcript) searchQuery) ||
    (decide (comic.alt ≠ "") && includes (toLowerCase comic.alt) searchQuery)

/-- The array `matchingComics` of `search` for the ids visited, with the state after the
fetches. -/
def matchesOf (toLowerCase : String → String) (fetch : Upstream) (now : Nat) (s : State)
    (searchQuery : String) (ids : List Int) : List Comic × State :=
  let started := startAll fetch now s ids
  let comics := finishAll now started.2 started.1
  let validComics := comics.1.filterMap (fun comic => comic)
  (validComics.filter (comicMatches toLowerCase searchQuery), comics.2)

/-- The array `matchingComics` of `search`, with the state after the fetches; `none` when the
loop over the ids has not ended within `fuel` tests of its condition. -/
def matchingComics (fuel : Nat) (toLowerCase : String → String) (fetch : Upstream) (now : Nat)
    (s : State) (searchQuery : String) (maxId : Int) : Option (List Comic × State) :=
  (searchIds fuel maxId).map (matchesOf toLowerCase fetch now s searchQuery)

/-- The field `pagination` of a search result. -/
structure Pagination where
  page : JSNum
  limit : JSNum
  totalPages : JSNum
  hasNext : Bool
  hasPrev : Bool
  offset : JSNum
  deriving DecidableEq

/-- What `search` returns. -/
structure SearchResult where
  query : String
  results : List Comic
  total : Nat
  pagination : Pagination
  deriving DecidableEq

/-- The value `search` returns for the given matches. -/
def paginate (searchQuery : String) (matching : List Comic) (numericPage numericLimit : JSNum) :
    SearchResult :=
  let offset := (numericPage.sub (.fin 1)).mul numericLimit
  let total := matching.length
  { query := searchQuery
    results := slice matching offset (offset.add numericLimit)
    total := total
    pagination :=
      { page := numericPage
        limit := numericLimit
        totalPages := (JSNum.div (.fin total) numericLimit).ceil
        hasNext := (offset.add numericLimit).lt (.fin total)
        hasPrev := (JSNum.fin 1).lt numericPage
        offset := offset } }

/-- A parameter with a default value: the default stands in for `undefined`. -/
def orDefault (v d : JSVal) : JSVal := if v = .undefined then d else v

/-- The method `search(query, page = 1, limit = 10)`. The result is `none` when the loop over
the ids has not ended within `fuel` tests of its condition. -/
def search (fuel : Nat) (toLowerCase : String → String) (fetch : Upstream) (now : Nat)
    (s : State) (query page limit : JSVal) : Option (Except String SearchResult × State) :=
  if queryInvalid query then some (.error "Query must be between 1 and 100 characters", s)
  else
    let searchQuery := toLowerCase (toStr query)
    let numericPage := parseInt (orDefault page (.num (.fin 1)))
    let numericLimit := parseInt (orDefault limit (.num (.fin 10)))
    match getLatest fetch now s with
    | (.error m, s1) => some (.error ("Search failed: " ++ m), s1)
    | (.ok latest, s1) =>
      (matchingComics fuel toLowerCase fetch now s1 searchQuery latest.num).map (fun m =>
        (.ok (paginate searchQuery m.1 numericPage numericLimit), m.2))

/-! ## Vocabulary of the specification -/

/-- What a lookup of `key` at time `now` answers, without the store it leaves behind. -/
def Store.lookup (c : Store) (now : Nat) (key : String) : Option Comic := (c.get now key).1

/-- No entry of the store reaches its expiry time in the interval from `t1` up to `t2`: none
is alive at `t1` and expired at `t2`. -/
def noExpiryBetween (c : Store) (t1 t2 : Nat) : Prop :=
  ∀ k e, c k = some e → ¬ (t1 ≤ e.t ∧ e.t < t2)

/-- `String.prototype.trim`. -/
def trim (s : String) : String := String.mk (trimEnd (trimStart s.data))

/-- The record contains the query, ignoring case, in its title, transcript or alternative
text. -/
def containsIgnoringCase (toLowerCase : String → String) (query : String) (comic : Comic) :
    Prop :=
  includes (toLowerCase comic.title) (toLowerCase query) = true ∨
    includes (toLowerCase comic.transcript) (toLowerCase query) = true ∨
    includes (toLowerCase comic.alt) (toLowerCase query) = true

instance (toLowerCase : String → String) (query : String) (comic : Comic) :
    Decidable (containsIgnoringCase toLowerCase query comic) := by
  unfold containsIgnoringCase; infer_instance

/-- The `n` consecutive integers from `lo` on. -/
def countUp : Nat → Int → List Int
  | 0, _ => []
  | n + 1, lo => lo :: countUp n (lo + 1)

/-- The record `getById(id)` resolves to, if it does. -/
def fetched (fetch : Upstream) (now : Nat) (s : State) (id : Int) : Option Comic :=
  match (getById fetch now s (.num (.fin id))).1 with
  | .ok comic => some comic
  | .error _ => none

/-! ## Sample data -/

/-- A state with an empty cache and no events. -/
def emptyState : State := ⟨fun _ => none, []⟩

/-- An upstream payload as the tests build them: comic `i`, titled `Python Comic` when
`i = 5`. -/
def sampleComic (i : Nat) : UpstreamComic :=
  { num := i
    title := if i = 5 then "Python Comic" else "Comic " ++ natToString i
    safe_title := "Comic " ++ natToString i
    year := "2023"
    month := "1"
    day := "1"
    img := "https://test.com/comic" ++ natToString i ++ ".png"
    alt := "Alt " ++ natToString i
    transcript := none
    news := none
    link := none }

/-- A successful response carrying the given payload. -/
def okResponse (data : UpstreamComic) : FetchOutcome := .resolved ⟨200, true, .ok data⟩

/-- The response to a request for a comic that does not exist. -/
def notFoundResponse : FetchOutcome := .resolved ⟨404, false, .error "Unexpected end of JSON"⟩

/-- An upstream with the comics 1 to `latest`: the latest one under `/info.0.json`, comic `i`
under `/i/info.0.json`, and status 404 for anything else. -/
def sampleUpstream (latest : Nat) : Upstream := fun url =>
  if url = baseUrl ++ "/info.0.json" then okResponse (sampleComic latest)
  else
    match (List.range (latest + 1)).find? (fun (i : Nat) =>
      decide (1 ≤ i) && decide (url = comicUrl (.fin (i : ℚ)))) with
    | some i => okResponse (sampleComic i)
    | none => notFoundResponse

/-- An upstream that answers every request for a comic with the same payload, in the manner
of the mock in the unit test of `getRandom`: the latest comic has number `latest` and every
other request is answered with comic `other`. -/
def constantUpstream (latest other : Nat) : Upstream := fun url =>
  if url = baseUrl ++ "/info.0.json" then okResponse (sampleComic latest)
  else okResponse (sampleComic other)

/-- The upstream that gives the latest comic the number 1000 and answers every other request
with comic 1234. -/
def mockedUpstream : Upstream := constantUpstream 1000 1234

/-- An upstream whose every request fails in transport with the given message. -/
def failingUpstream (message : String) : Upstream := fun _ => .rejected message

/-! # Theorems -/

set_option maxRecDepth 100000

/-! ## Decimal digits -/

theorem digitsValue_append (radix : Nat) (ds : List Nat) (d : Nat) :
    digitsValue radix (ds ++ [d]) = radix * digitsValue radix ds + d := by
  simp [digitsValue, List.foldl_append]

theorem decDigitsAux_append (fuel n : Nat) (acc : List Nat) :
    decDigitsAux fuel n acc = decDigitsAux fuel n [] ++ acc := by
  induction fuel generalizing n acc with
  | zero => simp [decDigitsAux]
  | succ fuel ih =>
    simp only [decDigitsAux]
    split_ifs with h
    · simp
    · rw [ih (n / 10) (n % 10 :: acc), ih (n / 10) [n % 10]]
      simp

theorem decDigitsAux_value (fuel n : Nat) (h : n < fuel) :
    digitsValue 10 (decDigitsAux fuel n []) = n := by
  induction fuel generalizing n with
  | zero => omega
  | succ fuel ih =>
    simp only [decDigitsAux]
    split_ifs with h10
    · simp [digitsValue]
    · rw [decDigitsAux_append, digitsValue_append, ih (n / 10) (by omega)]
      omega

theorem decDigitsAux_lt (fuel n : Nat) : ∀ d ∈ decDigitsAux fuel n [], d < 10 := by
  induction fuel generalizing n with
  | zero => simp [decDigitsAux]
  | succ fuel ih =>
    simp only [decDigitsAux]
    split_ifs with h10
    · simpa using h10
    · rw [decDigitsAux_append]
      intro d hd
      rcases List.mem_append.mp hd with hd | hd
      · exact ih (n / 10) d hd
      · simp only [List.mem_singleton] at hd
        subst hd
        exact Nat.mod_lt _ (by decide)

theorem decDigitsAux_head (fuel n : Nat) (h : n < fuel) (hn : 0 < n) :
    ∃ d ds, decDigitsAux fuel n [] = d :: ds ∧ 1 ≤ d ∧ d < 10 := by
  induction fuel generalizing n with
  | zero => omega
  | succ fuel ih =>
    simp only [decDigitsAux]
    split_ifs with h10
    · exact ⟨n, [], rfl, hn, h10⟩
    · rw [decDigitsAux_append]
      obtain ⟨d, ds, hd, h1, h2⟩ := ih (n / 10) (by omega) (by omega)
      exact ⟨d, ds ++ [n % 10], by simp [hd], h1, h2⟩

theorem decDigits_value (n : Nat) : digitsValue 10 (decDigits n) = n :=
  decDigitsAux_value (n + 1) n (Nat.lt_succ_self n)

theorem decDigits_lt (n : Nat) : ∀ d ∈ decDigits n, d < 10 := decDigitsAux_lt (n + 1) n

theorem decDigits_head (n : Nat) (hn : 0 < n) :
    ∃ d ds, decDigits n = d :: ds ∧ 1 ≤ d ∧ d < 10 :=
  decDigitsAux_head (n + 1) n (Nat.lt_succ_self n) hn

theorem decDigits_ne_nil (n : Nat) : decDigits n ≠ [] := by
  rcases Nat.eq_zero_or_pos n with h | h
  · subst h; decide
  · obtain ⟨d, ds, hd, _⟩ := decDigits_head n h
    simp [hd]

/-! ## Reading digits back -/

theorem digitVal_digitChar (d : Nat) (h : d < 10) : digitVal 10 (digitChar d) = some d := by
  interval_cases d <;> rfl

theorem isWhiteSpace_digitChar (d : Nat) (h : d < 10) : isWhiteSpace (digitChar d) = false := by
  interval_cases d <;> rfl

theorem takeSign_digitChar (d : Nat) (h : d < 10) (t : List Char) :
    takeSign (digitChar d :: t) = (false, digitChar d :: t) := by
  interval_cases d <;> rfl

theorem hexMarker_digitChar_pos (d : Nat) (h : d < 10) (h1 : 1 ≤ d) (t : List Char) :
    hexMarker (digitChar d :: t) = false := by
  interval_cases d <;> rfl

theorem hexMarker_digits (d e : Nat) (h : d < 10) (he : e < 10) (t : List Char) :
    hexMarker (digitChar d :: digitChar e :: t) = false := by
  interval_cases d <;> interval_cases e <;> rfl

theorem hexMarker_single (d : Nat) (h : d < 10) : hexMarker [digitChar d] = false := by
  interval_cases d <;> rfl

theorem takeDigits_digits (ds : List Nat) (hds : ∀ d ∈ ds, d < 10) (rest : List Char)
    (hrest : ∀ c r, rest = c :: r → digitVal 10 c = none) :
    takeDigits 10 (ds.map digitChar ++ rest) = (ds, rest) := by
  induction ds with
  | nil =>
    cases rest with
    | nil => rfl
    | cons c r => simp [takeDigits, hrest c r rfl]
  | cons d ds ih =>
    have hd := digitVal_digitChar d (hds d (List.mem_cons_self d ds))
    have := ih (fun x hx => hds x (List.mem_cons_of_mem d hx))
    simp [takeDigits, hd, this]

theorem parseIntChars_digits (d : Nat) (ds : List Nat) (hds : ∀ x ∈ d :: ds, x < 10)
    (rest : List Char) (hrest : ∀ c r, rest = c :: r → digitVal 10 c = none)
    (hhex : hexMarker ((d :: ds).map digitChar ++ rest) = false) :
    parseIntChars ((d :: ds).map digitChar ++ rest) = .fin (digitsValue 10 (d :: ds)) := by
  have hd : d < 10 := hds d (List.mem_cons_self d ds)
  have h1 : trimStart ((d :: ds).map digitChar ++ rest) = (d :: ds).map digitChar ++ rest := by
    simp [trimStart, List.dropWhile, isWhiteSpace_digitChar d hd]
  have h2 : takeSign ((d :: ds).map digitChar ++ rest) =
      (false, (d :: ds).map digitChar ++ rest) := by
    simpa using takeSign_digitChar d hd (ds.map digitChar ++ rest)
  have h3 := takeDigits_digits (d :: ds) hds rest hrest
  simp only [parseIntChars, h1, h2, hhex, Bool.false_eq_true, if_false, h3]

theorem parseIntChars_natToString (n : Nat) :
    parseIntChars (natToString n).data = .fin n := by
  obtain ⟨d, ds, hd⟩ := List.exists_cons_of_ne_nil (decDigits_ne_nil n)
  have hlt := decDigits_lt n
  rw [hd] at hlt
  have hhex : hexMarker ((d :: ds).map digitChar ++ []) = false := by
    cases ds with
    | nil => simpa using hexMarker_single d (hlt d (by simp))
    | cons e es =>
      simpa using hexMarker_digits d e (hlt d (by simp)) (hlt e (by simp)) (es.map digitChar)
  have := parseIntChars_digits d ds hlt [] (by simp) hhex
  rw [← hd, decDigits_value] at this
  simpa [natToString, hd] using this

/-! ## parseInt on integer Numbers -/

theorem numberToString_nat (n : ℕ) : numberToString (.fin (n : ℚ)) = magToString n := by
  have h : ¬ ((n : ℤ) < 0) := by omega
  simp only [numberToString, Rat.den_natCast, Rat.num_natCast, if_true, h, if_false,
    Int.natAbs_ofNat]
  apply String.ext
  simp [String.data_append]

theorem parseInt_nat (n : ℕ) (h : n < 10 ^ 21) : parseInt (.num (.fin (n : ℚ))) = .fin n := by
  simp only [parseInt, toStr, numberToString_nat, magToString, h, if_true]
  exact parseIntChars_natToString n

theorem dropWhile_append_singleton {α : Type} (p : α → Bool) (a : List α) (d : α)
    (hd : p d = false) : (a ++ [d]).dropWhile p = a.dropWhile p ++ [d] := by
  induction a with
  | nil => simp [List.dropWhile, hd]
  | cons x a ih =>
    simp only [List.cons_append, List.dropWhile]
    cases p x with
    | true => simpa using ih
    | false => simp

theorem stripTrailingZeros_cons (d : Nat) (ds : List Nat) (hd : d ≠ 0) :
    stripTrailingZeros (d :: ds) = d :: stripTrailingZeros ds := by
  simp only [stripTrailingZeros, List.reverse_cons]
  rw [dropWhile_append_singleton _ _ _ (by simpa using hd)]
  simp

theorem parseIntChars_expToString (n : ℕ) (hn : 0 < n) :
    ∃ d : ℕ, 1 ≤ d ∧ d < 10 ∧ parseIntChars (expToString n).data = .fin (d : ℚ) := by
  obtain ⟨d, ds, hds, h1, h10⟩ := decDigits_head n hn
  refine ⟨d, h1, h10, ?_⟩
  have hstrip := stripTrailingZeros_cons d ds (by omega)
  have hexp : ∃ rest : List Char, (expToString n).data = [d].map digitChar ++ rest ∧
      ∀ c r, rest = c :: r → digitVal 10 c = none := by
    simp only [expToString, hds, hstrip]
    by_cases hr : stripTrailingZeros ds = []
    · refine ⟨"e+".data ++ (natToString ((d :: ds).length - 1)).data, ?_, ?_⟩
      · simp [hr, String.data_append]
      · intro c r hc
        have : c = 'e' := by
          have := congrArg List.head? hc
          simpa using this.symm
        subst this
        rfl
    · refine ⟨('.' :: (stripTrailingZeros ds).map digitChar) ++ "e+".data ++
        (natToString ((d :: ds).length - 1)).data, ?_, ?_⟩
      · simp [hr, String.data_append]
      · intro c r hc
        have : c = '.' := by
          have := congrArg List.head? hc
          simpa using this.symm
        subst this
        rfl
  obtain ⟨rest, hdata, hrest⟩ := hexp
  rw [hdata]
  have := parseIntChars_digits d [] (by simpa using h10) rest hrest
    (by simpa using hexMarker_digitChar_pos d h10 h1 rest)
  simpa [digitsValue] using this

theorem parseInt_nat_large (n : ℕ) (h : 10 ^ 21 ≤ n) :
    ∃ d : ℕ, 1 ≤ d ∧ d < 10 ∧ parseInt (.num (.fin (n : ℚ))) = .fin (d : ℚ) := by
  have hn : ¬ n < 10 ^ 21 := by omega
  simp only [parseInt, toStr, numberToString_nat, magToString, hn, if_false]
  exact parseIntChars_expToString n (by
    have : 0 < 10 ^ 21 := by norm_num
    omega)

theorem invalidId_nat (n : ℕ) (h : 1 ≤ n) : invalidId (.num (.fin (n : ℚ))) = false := by
  have h0 : (n : ℚ) ≠ 0 := by
    have : 0 < n := h
    exact_mod_cast this.ne'
  have h1 : ¬ (n : ℚ) < 1 := by
    have : (1 : ℚ) ≤ n := by exact_mod_cast h
    linarith
  simp [invalidId, toBoolean, isNaN, toNumber, JSNum.lt, isInteger, h0, h1]

/-! ## Strings -/

theorem jsLength_eq_zero (q : String) : jsLength q = 0 ↔ q = "" := by
  constructor
  · intro h
    cases q with
    | mk cs =>
      cases cs with
      | nil => rfl
      | cons c cs =>
        simp only [jsLength, List.map_cons, List.sum_cons] at h
        split_ifs at h <;> omega
  · rintro rfl
    rfl

theorem queryInvalid_str (q : String) :
    queryInvalid (.str q) = true ↔ (jsLength q < 1 ∨ 100 < jsLength q) := by
  have h0 := jsLength_eq_zero q
  simp only [queryInvalid, toBoolean, typeOf, toStr, Bool.or_eq_true, Bool.not_eq_true',
    decide_eq_false_iff_not, decide_eq_true_eq, ne_eq, not_not, not_true_eq_false, or_false]
  constructor
  · rintro ((h | h) | h)
    · left; rw [h0.mpr h]; exact Nat.zero_lt_one
    · left; exact h
    · right; exact h
  · rintro (h | h)
    · left; right; exact h
    · right; exact h

theorem queryInvalid_of_not_str (query : JSVal) (h : ∀ q, query ≠ .str q) :
    queryInvalid query = true := by
  cases query with
  | str q => exact absurd rfl (h q)
  | _ => simp [queryInvalid, toBoolean, typeOf]

theorem searchFailed_ne (m : String) :
    "Search failed: " ++ m ≠ "Query must be between 1 and 100 characters" := by
  intro h
  have h2 := congrArg String.data h
  simp [String.data_append] at h2

theorem startsWith_append (p s : List Char) : startsWith (p ++ s) p = true := by
  induction p with
  | nil => cases s <;> rfl
  | cons c p ih => simp [startsWith, ih]

theorem includesChars_self_append (m s : List Char) : includesChars (m ++ s) m = true := by
  cases m with
  | nil => cases s <;> simp [includesChars, startsWith]
  | cons c m =>
    have := startsWith_append (c :: m) s
    simp only [List.cons_append] at this ⊢
    simp [includesChars, this]

theorem includesChars_append_left (a b m : List Char) (h : includesChars b m = true) :
    includesChars (a ++ b) m = true := by
  induction a with
  | nil => simpa using h
  | cons c a ih => simp [includesChars, ih]

theorem includes_self (m : String) : includes m m = true := by
  have := includesChars_self_append m.data []
  simpa [includes] using this

theorem includes_append_right (a m : String) : includes (a ++ m) m = true := by
  have := includesChars_append_left a.data m.data m.data
    (by simpa using includesChars_self_append m.data [])
  simpa [includes, String.data_append] using this

/-! ## The cache -/

theorem get_of_none {c : Store} {now : Nat} {key : String} (h : c key = none) :
    c.get now key = (none, c) := by
  simp [Store.get, h]

theorem get_of_expired {c : Store} {now : Nat} {key : String} {e : Entry} (h : c key = some e)
    (hx : e.t ≠ 0 ∧ e.t < now) :
    c.get now key = (none, fun k => if k = key then none else c k) := by
  simp only [Store.get, h]
  rw [if_pos hx]

theorem get_of_live {c : Store} {now : Nat} {key : String} {e : Entry} (h : c key = some e)
    (hx : ¬ (e.t ≠ 0 ∧ e.t < now)) : c.get now key = (some e.v, c) := by
  simp only [Store.get, h]
  rw [if_neg hx]

theorem lookup_get (c : Store) (now : Nat) (key k : String) :
    Store.lookup (c.get now key).2 now k = Store.lookup c now k := by
  unfold Store.lookup
  cases hk : c key with
  | none => rw [get_of_none hk]
  | some e =>
    by_cases hexp : e.t ≠ 0 ∧ e.t < now
    · rw [get_of_expired hk hexp]
      by_cases hkk : k = key
      · subst hkk
        rw [get_of_expired hk hexp]
        exact congrArg Prod.fst (get_of_none (by simp))
      · cases hk2 : c k with
        | none =>
          rw [get_of_none hk2, get_of_none (by simp [hkk, hk2])]
        | some e2 =>
          by_cases hexp2 : e2.t ≠ 0 ∧ e2.t < now
          · rw [get_of_expired hk2 hexp2, get_of_expired (e := e2) (by simp [hkk, hk2]) hexp2]
          · rw [get_of_live hk2 hexp2, get_of_live (e := e2) (by simp [hkk, hk2]) hexp2]
    · rw [get_of_live hk hexp]

/-! ## processComic -/

/-- C4. For every upstream payload, `processComic` copies `num` into `id` and `num`, copies
title, safe_title, img, alt, year, month and day unchanged, composes `date` as
year, `-`, month, `-`, day with no padding, and gives each of transcript, news and link the
upstream value when present and the empty string when absent; comic 1 of 2006-1-1 without a
transcript gets the date `2006-1-1` and the transcript `""`. -/
theorem processComic_normalizes (comicData : UpstreamComic) :
    processComic comicData =
      { id := comicData.num
        title := comicData.title
        safe_title := comicData.safe_title
        date := comicData.year ++ "-" ++ comicData.month ++ "-" ++ comicData.day
        img := comicData.img
        alt := comicData.alt
        transcript := comicData.transcript.getD ""
        news := comicData.news.getD ""
        link := comicData.link.getD ""
        num := comicData.num
        year := comicData.year
        month := comicData.month
        day := comicData.day } ∧
    (processComic { sampleComic 1 with year := "2006" }).date = "2006-1-1" ∧
    (processComic { sampleComic 1 with year := "2006" }).transcript = "" := by
  have key : ∀ o : Option String, orEmpty o = o.getD "" := by
    intro o
    cases o with
    | none => rfl
    | some s =>
      by_cases hs : s = ""
      · subst hs; rfl
      · simp [orEmpty, hs]
  refine ⟨?_, by decide, by decide⟩
  simp [processComic, key]

/-! ## The guard of search -/

theorem search_not_rejected (fuel : Nat) (toLowerCase : String → String) (fetch : Upstream)
    (now : Nat) (s : State) (query page limit : JSVal) (hq : queryInvalid query = false)
    (out : Except String SearchResult × State)
    (h : search fuel toLowerCase fetch now s query page limit = some out) :
    out.1 ≠ .error "Query must be between 1 and 100 characters" := by
  simp only [search, hq, Bool.false_eq_true, if_false] at h
  cases hl : getLatest fetch now s with
  | mk r s1 =>
    rw [hl] at h
    cases r with
    | error m =>
      simp only [Option.some.injEq] at h
      subst h
      intro h
      injection h with h
      exact searchFailed_ne m h
    | ok latest =>
      simp only [Option.map_eq_some'] at h
      obtain ⟨m, _, rfl⟩ := h
      intro h
      cases h

/-- C6. A query that is the empty string, is longer than 100 (UTF-16) characters, or is not a
string makes `search` fail with `Query must be between 1 and 100 characters`, unwrapped, in
the state it was called in (no cache access, no fetch); a string query of length 1 to 100
passes the guard, so that `search` does not fail with that message. -/
theorem search_rejects_bad_query (fuel : Nat) (toLowerCase : String → String)
    (fetch : Upstream) (now : Nat) (s : State) (query page limit : JSVal) :
    ((query = .str "" ∨ (∃ q, query = .str q ∧ 100 < jsLength q) ∨ (∀ q, query ≠ .str q)) →
      search fuel toLowerCase fetch now s query page limit =
        some (.error "Query must be between 1 and 100 characters", s)) ∧
    (∀ q, query = .str q → 1 ≤ jsLength q → jsLength q ≤ 100 →
      queryInvalid query = false ∧
      ∀ out, search fuel toLowerCase fetch now s query page limit = some out →
        out.1 ≠ .error "Query must be between 1 and 100 characters") := by
  constructor
  · intro h
    have hq : queryInvalid query = true := by
      rcases h with h | ⟨q, rfl, hq⟩ | h
      · subst h; decide
      · exact (queryInvalid_str q).mpr (Or.inr hq)
      · exact queryInvalid_of_not_str query h
    simp [search, hq]
  · rintro q rfl h1 h2
    have hq : queryInvalid (.str q) = false := by
      cases hv : queryInvalid (.str q) with
      | false => rfl
      | true =>
        rcases (queryInvalid_str q).mp hv with h | h <;> omega
    exact ⟨hq, search_not_rejected fuel toLowerCase fetch now s (.str q) page limit hq⟩

/-- C6, at concrete queries: the empty string and the number 5 are rejected in place, and
`python` passes the guard. -/
theorem search_rejects_bad_query_witness :
    search 101 asciiLowerCase (sampleUpstream 10) 0 emptyState (.str "") .undefined
        .undefined =
      some (.error "Query must be between 1 and 100 characters", emptyState) ∧
    search 101 asciiLowerCase (sampleUpstream 10) 0 emptyState (.num (.fin 5)) .undefined
        .undefined =
      some (.error "Query must be between 1 and 100 characters", emptyState) ∧
    queryInvalid (.str "python") = false :=
  ⟨(search_rejects_bad_query 101 asciiLowerCase (sampleUpstream 10) 0 emptyState (.str "")
      .undefined .undefined).1 (Or.inl rfl),
   (search_rejects_bad_query 101 asciiLowerCase (sampleUpstream 10) 0 emptyState
      (.num (.fin 5)) .undefined .undefined).1 (Or.inr (Or.inr (fun q h => by cases h))),
   ((search_rejects_bad_query 101 asciiLowerCase (sampleUpstream 10) 0 emptyState
      (.str "python") .undefined .undefined).2 "python" rfl (by decide) (by decide)).1⟩

/-- C10, as the code has it: `search` checks the length of the query as given, without
trimming. For every string query it fails with
`Query must be between 1 and 100 characters` exactly when the length of the query itself is
below 1 or above 100. -/
theorem search_validates_raw_length (fuel : Nat) (toLowerCase : String → String)
    (fetch : Upstream) (now : Nat) (s : State) (q : String) (page limit : JSVal) :
    (∃ s1, search fuel toLowerCase fetch now s (.str q) page limit =
        some (.error "Query must be between 1 and 100 characters", s1)) ↔
      (jsLength q < 1 ∨ 100 < jsLength q) := by
  constructor
  · rintro ⟨s1, h⟩
    by_contra hn
    have hq : queryInvalid (.str q) = false := by
      cases hv : queryInvalid (.str q) with
      | false => rfl
      | true => exact absurd ((queryInvalid_str q).mp hv) hn
    exact search_not_rejected fuel toLowerCase fetch now s (.str q) page limit hq _ h rfl
  · intro h
    have hq := (queryInvalid_str q).mpr h
    exact ⟨s, by simp [search, hq]⟩

/-- C10 refuted as stated: a query of three spaces has trimmed length 0 and `search` does not
reject it (it runs and finds no match); a query of one space and a hundred letters has trimmed
length 100 and `search` rejects it. -/
theorem search_does_not_trim :
    jsLength (trim "   ") = 0 ∧
    (search 101 asciiLowerCase (sampleUpstream 3) 0 emptyState (.str "   ") .undefined
        .undefined).map (fun out => out.1.toOption.map (fun r => r.total)) = some (some 0) ∧
    jsLength (trim (String.mk (' ' :: List.replicate 100 'a'))) = 100 ∧
    search 101 asciiLowerCase (sampleUpstream 3) 0 emptyState
        (.str (String.mk (' ' :: List.replicate 100 'a'))) .undefined .undefined =
      some (.error "Query must be between 1 and 100 characters", emptyState) := by
  refine ⟨by decide, ?_, by decide, ?_⟩
  · with_unfolding_all decide
  · have h : queryInvalid (.str (String.mk (' ' :: List.replicate 100 'a'))) = true := by decide
    simp only [search, h, if_true]

/-! ## getLatest -/

theorem lookup_eq_none_or (c : Store) (now : Nat) (key : String) :
    (Store.lookup c now key = none ∧ (c.get now key).1 = none) ∨
    (∃ e, c key = some e ∧ ¬ (e.t ≠ 0 ∧ e.t < now) ∧ c.get now key = (some e.v, c) ∧
      Store.lookup c now key = some e.v) := by
  unfold Store.lookup
  cases hk : c key with
  | none => left; rw [get_of_none hk]; exact ⟨rfl, rfl⟩
  | some e =>
    by_cases hx : e.t ≠ 0 ∧ e.t < now
    · left; rw [get_of_expired hk hx]; exact ⟨rfl, rfl⟩
    · right; exact ⟨e, rfl, hx, get_of_live hk hx, by rw [get_of_live hk hx]⟩

theorem fetchCount_append (l1 l2 : List Event) :
    fetchCount (l1 ++ l2) = fetchCount l1 + fetchCount l2 := by
  simp [fetchCount]

theorem getLatest_hit {fetch : Upstream} {now : Nat} {s : State} {cached : Comic}
    (h : Store.lookup s.cache now "comic-latest" = some cached) :
    getLatest fetch now s =
      (.ok cached,
        ⟨(s.cache.get now "comic-latest").2, s.log ++ [.cacheGet "comic-latest"]⟩) := by
  unfold Store.lookup at h
  simp only [getLatest, h]

theorem getLatest_miss {fetch : Upstream} {now : Nat} {s : State}
    (h : Store.lookup s.cache now "comic-latest" = none) :
    getLatest fetch now s =
      match getLatestTry (fetch (baseUrl ++ "/info.0.json")) with
      | .ok processedComic =>
        (.ok processedComic,
          ⟨(s.cache.get now "comic-latest").2.set now "comic-latest" processedComic,
            (s.log ++ [.cacheGet "comic-latest"]) ++
              [.fetch (baseUrl ++ "/info.0.json"), .cacheSet "comic-latest"]⟩)
      | .error m =>
        (.error (getLatestCatch m),
          ⟨(s.cache.get now "comic-latest").2,
            (s.log ++ [.cacheGet "comic-latest"]) ++ [.fetch (baseUrl ++ "/info.0.json")]⟩) := by
  unfold Store.lookup at h
  simp only [getLatest, h, State.emit]

/-- C9. On a cache hit `getLatest` returns the cached record and fetches nothing. On a miss: a
response that is not `ok` makes it fail with exactly `Failed to fetch latest comic`; a
transport failure with message `m` makes it fail with a message that contains `m`; and
whenever it fails, it has only looked the key up and issued its one request: nothing is set,
and every key answers as before. -/
theorem getLatest_failures (fetch : Upstream) (now : Nat) (s : State) :
    (∀ cached, Store.lookup s.cache now "comic-latest" = some cached →
      (getLatest fetch now s).1 = .ok cached ∧
      fetchCount (getLatest fetch now s).2.log = fetchCount s.log) ∧
    (Store.lookup s.cache now "comic-latest" = none →
      (∀ response, fetch (baseUrl ++ "/info.0.json") = .resolved response →
        response.ok = false →
        (getLatest fetch now s).1 = .error "Failed to fetch latest comic") ∧
      (∀ m, fetch (baseUrl ++ "/info.0.json") = .rejected m →
        ∃ msg, (getLatest fetch now s).1 = .error msg ∧ includes msg m = true) ∧
      (∀ msg, (getLatest fetch now s).1 = .error msg →
        (getLatest fetch now s).2.log =
          s.log ++ [.cacheGet "comic-latest", .fetch (baseUrl ++ "/info.0.json")] ∧
        ∀ k, Store.lookup (getLatest fetch now s).2.cache now k =
          Store.lookup s.cache now k)) := by
  constructor
  · intro cached h
    rw [getLatest_hit h]
    refine ⟨rfl, ?_⟩
    simp [fetchCount]
  · intro hmiss
    rw [getLatest_miss hmiss]
    refine ⟨?_, ?_, ?_⟩
    · intro response hf hok
      simp [hf, getLatestTry, hok, getLatestCatch]
    · intro m hf
      simp only [hf, getLatestTry, getLatestCatch]
      by_cases hm : m = "Failed to fetch latest comic"
      · exact ⟨m, by simp [hm], includes_self m⟩
      · exact ⟨"Failed to fetch latest comic: " ++ m, by simp [hm],
          includes_append_right _ m⟩
    · intro msg hmsg
      cases ht : getLatestTry (fetch (baseUrl ++ "/info.0.json")) with
      | ok c => rw [ht] at hmsg; cases hmsg
      | error m =>
        simp only []
        refine ⟨by simp, ?_⟩
        intro k
        exact lookup_get s.cache now "comic-latest" k

/-- C9, on an empty cache: a transport failure `Network error` is reported with that text
inside the message, and a cached record is returned without a fetch. -/
theorem getLatest_failures_witness :
    (∃ msg, (getLatest (failingUpstream "Network error") 0 emptyState).1 = .error msg ∧
      includes msg "Network error" = true) ∧
    (getLatest (failingUpstream "Network error") 5
        ⟨emptyState.cache.set 0 "comic-latest" (processComic (sampleComic 7)), []⟩).1 =
      .ok (processComic (sampleComic 7)) :=
  ⟨((getLatest_failures (failingUpstream "Network error") 0 emptyState).2 (by decide)).2.1
      "Network error" rfl,
   ((getLatest_failures (failingUpstream "Network error") 5
      ⟨emptyState.cache.set 0 "comic-latest" (processComic (sampleComic 7)), []⟩).1
      (processComic (sampleComic 7)) (by decide)).1⟩

/-! ## getById -/

theorem getById_invalid {fetch : Upstream} {now : Nat} {s : State} {id : JSVal}
    (h : invalidId id = true) : getById fetch now s id = (.error "Invalid comic ID", s) := by
  simp [getById, getByIdStart, h, getByIdFinish]

theorem getById_hit {fetch : Upstream} {now : Nat} {s : State} {id : JSVal} {cached : Comic}
    (hid : invalidId id = false)
    (h : Store.lookup s.cache now (comicKey (parseInt id)) = some cached) :
    getById fetch now s id =
      (.ok cached,
        ⟨(s.cache.get now (comicKey (parseInt id))).2,
          s.log ++ [.cacheGet (comicKey (parseInt id))]⟩) := by
  unfold Store.lookup at h
  simp [getById, getByIdStart, hid, getByIdFinish, h]

theorem getById_miss {fetch : Upstream} {now : Nat} {s : State} {id : JSVal}
    (hid : invalidId id = false)
    (h : Store.lookup s.cache now (comicKey (parseInt id)) = none) :
    getById fetch now s id =
      match getByIdTry (parseInt id) (fetch (comicUrl (parseInt id))) with
      | .ok processedComic =>
        (.ok processedComic,
          ⟨(s.cache.get now (comicKey (parseInt id))).2.set now (comicKey (parseInt id))
              processedComic,
            ((s.log ++ [.cacheGet (comicKey (parseInt id))]) ++
              [.fetch (comicUrl (parseInt id))]) ++ [.cacheSet (comicKey (parseInt id))]⟩)
      | .error m =>
        (.error (getByIdCatch (parseInt id) m),
          ⟨(s.cache.get now (comicKey (parseInt id))).2,
            (s.log ++ [.cacheGet (comicKey (parseInt id))]) ++
              [.fetch (comicUrl (parseInt id))]⟩) := by
  unfold Store.lookup at h
  simp only [getById, getByIdStart, hid, getByIdFinish, h, State.emit, Bool.false_eq_true,
    if_false]

theorem invalidId_of_ok {fetch : Upstream} {now : Nat} {s : State} {id : JSVal} {r : Comic}
    (h : (getById fetch now s id).1 = .ok r) : invalidId id = false := by
  cases hv : invalidId id with
  | false => rfl
  | true => rw [getById_invalid hv] at h; cases h

theorem failedToFetch_ne (x m : String) :
    "Failed to fetch comic " ++ x ++ m ≠ "Comic not found" := by
  intro h
  have h2 := congrArg String.data h
  simp [String.data_append] at h2

theorem startsWith_string_append (p s : String) : startsWith (p ++ s).data p.data = true := by
  rw [String.data_append]
  exact startsWith_append p.data s.data

/-! ## Repeated calls -/

theorem lookup_of_live {c : Store} {t1 t2 : Nat} {key : String} {e : Entry}
    (hk : c key = some e) (h1 : ¬ (e.t ≠ 0 ∧ e.t < t1)) (hn : noExpiryBetween c t1 t2) :
    Store.lookup c t2 key = some e.v := by
  have h2 : ¬ (e.t ≠ 0 ∧ e.t < t2) := by
    have := hn key e hk
    intro ⟨h0, hlt⟩
    apply this
    refine ⟨?_, hlt⟩
    by_contra hc
    exact h1 ⟨h0, by omega⟩
  unfold Store.lookup
  rw [get_of_live hk h2]

theorem lookup_of_set {c : Store} {t1 t2 : Nat} {key : String} {v : Comic}
    (hn : noExpiryBetween (c.set t1 key v) t1 t2) :
    Store.lookup (c.set t1 key v) t2 key = some v := by
  have hk : (c.set t1 key v) key = some ⟨v, t1 + stdTTL * 1000⟩ := by simp [Store.set]
  have := @lookup_of_live (c.set t1 key v) t1 t2 key _ hk (by simp) hn
  simpa using this

/-- C3. From any cache state, if `getById(id)` succeeds and no cache entry expires before the
next call, a second `getById(id)` succeeds with the same record, and the two calls together
fetch once when the key was not in the cache and not at all when it was; the same holds for
two calls of `getLatest()`. -/
theorem repeated_call_hits_cache :
    (∀ (fetch1 fetch2 : Upstream) (t1 t2 : Nat) (s : State) (id : JSVal) (r1 : Comic),
      (getById fetch1 t1 s id).1 = .ok r1 →
      noExpiryBetween (getById fetch1 t1 s id).2.cache t1 t2 →
      (getById fetch2 t2 (getById fetch1 t1 s id).2 id).1 = .ok r1 ∧
      fetchCount (getById fetch2 t2 (getById fetch1 t1 s id).2 id).2.log =
        fetchCount s.log +
          (if (Store.lookup s.cache t1 (comicKey (parseInt id))).isSome then 0 else 1)) ∧
    (∀ (fetch1 fetch2 : Upstream) (t1 t2 : Nat) (s : State) (r1 : Comic),
      (getLatest fetch1 t1 s).1 = .ok r1 →
      noExpiryBetween (getLatest fetch1 t1 s).2.cache t1 t2 →
      (getLatest fetch2 t2 (getLatest fetch1 t1 s).2).1 = .ok r1 ∧
      fetchCount (getLatest fetch2 t2 (getLatest fetch1 t1 s).2).2.log =
        fetchCount s.log +
          (if (Store.lookup s.cache t1 "comic-latest").isSome then 0 else 1)) := by
  constructor
  · intro fetch1 fetch2 t1 t2 s id r1 h1 hn
    have hid := invalidId_of_ok h1
    rcases lookup_eq_none_or s.cache t1 (comicKey (parseInt id)) with
      ⟨hmiss, _⟩ | ⟨e, hk, hlive, hget, hhit⟩
    · rw [getById_miss hid hmiss] at h1 hn ⊢
      cases ht : getByIdTry (parseInt id) (fetch1 (comicUrl (parseInt id))) with
      | error m => rw [ht] at h1; cases h1
      | ok c =>
        rw [ht] at h1 hn
        simp only [] at h1 hn ⊢
        injection h1 with h1
        subst h1
        have hl := lookup_of_set hn
        rw [getById_hit hid hl]
        simp [fetchCount, hmiss]
    · rw [getById_hit hid hhit] at h1 hn ⊢
      simp only [hget] at h1 hn ⊢
      injection h1 with h1
      subst h1
      have hl := lookup_of_live hk hlive hn
      have h2 := @getById_hit fetch2 t2
        (⟨s.cache, s.log ++ [Event.cacheGet (comicKey (parseInt id))]⟩ : State) id e.v hid hl
      rw [h2]
      simp [fetchCount, hhit]
  · intro fetch1 fetch2 t1 t2 s r1 h1 hn
    rcases lookup_eq_none_or s.cache t1 "comic-latest" with
      ⟨hmiss, _⟩ | ⟨e, hk, hlive, hget, hhit⟩
    · rw [getLatest_miss hmiss] at h1 hn ⊢
      cases ht : getLatestTry (fetch1 (baseUrl ++ "/info.0.json")) with
      | error m => rw [ht] at h1; cases h1
      | ok c =>
        rw [ht] at h1 hn
        simp only [] at h1 hn ⊢
        injection h1 with h1
        subst h1
        have hl := lookup_of_set hn
        rw [getLatest_hit hl]
        simp [fetchCount, hmiss]
    · rw [getLatest_hit hhit] at h1 hn ⊢
      simp only [hget] at h1 hn ⊢
      injection h1 with h1
      subst h1
      have hl := lookup_of_live hk hlive hn
      have h2 := @getLatest_hit fetch2 t2
        (⟨s.cache, s.log ++ [Event.cacheGet "comic-latest"]⟩ : State) e.v hl
      rw [h2]
      simp [fetchCount, hhit]

/-- C3, on an empty cache: comic 3 is fetched once by the first call and answered from the
cache a second later. -/
theorem repeated_call_hits_cache_witness :
    (getById (sampleUpstream 10) 1000
        (getById (sampleUpstream 10) 0 emptyState (.num (.fin 3))).2 (.num (.fin 3))).1 =
      .ok (processComic (sampleComic 3)) ∧
    fetchCount (getById (sampleUpstream 10) 1000
        (getById (sampleUpstream 10) 0 emptyState (.num (.fin 3))).2 (.num (.fin 3))).2.log =
      fetchCount emptyState.log +
        (if (Store.lookup emptyState.cache 0 (comicKey (parseInt (.num (.fin 3))))).isSome
          then 0 else 1) := by
  have hc : (getById (sampleUpstream 10) 0 emptyState (.num (.fin 3))).2.cache =
      (emptyState.cache.get 0 "comic-3").2.set 0 "comic-3" (processComic (sampleComic 3)) := by
    with_unfolding_all rfl
  refine repeated_call_hits_cache.1 (sampleUpstream 10) (sampleUpstream 10) 0 1000 emptyState
    (.num (.fin 3)) (processComic (sampleComic 3)) (by with_unfolding_all rfl) ?_
  intro k e hk
  rw [hc] at hk
  simp only [Store.set, Store.get, emptyState] at hk
  split_ifs at hk
  injection hk with hk
  subst hk
  simp [stdTTL]

/-! ## Upstream failures of getById -/

/-- C2, as the code has it. For an id that passes the guard and whose key is not in the cache:
a response with status 404 makes `getById` fail with exactly `Comic not found`; any other
response that is not `ok`, and any transport failure whose message is not `Comic not found`,
makes it fail with a message that starts with `Failed to fetch comic ` followed by the id it
looked up, and that is not `Comic not found`; a transport failure whose message is
`Comic not found` is passed on unchanged. Whenever it fails after the lookup, nothing is set
in the cache and every key answers as before. The id looked up is the given id for every
integer id from 1 up to `10^21`. -/
theorem getById_upstream_failure (fetch : Upstream) (now : Nat) (s : State) (id : JSVal)
    (hid : invalidId id = false)
    (hmiss : Store.lookup s.cache now (comicKey (parseInt id)) = none) :
    (∀ response, fetch (comicUrl (parseInt id)) = .resolved response →
      response.status = 404 → (getById fetch now s id).1 = .error "Comic not found") ∧
    (∀ response, fetch (comicUrl (parseInt id)) = .resolved response →
      response.status ≠ 404 → response.ok = false →
      ∃ msg, (getById fetch now s id).1 = .error msg ∧
        startsWith msg.data ("Failed to fetch comic " ++ numberToString (parseInt id)).data =
          true ∧
        msg ≠ "Comic not found") ∧
    (∀ m, fetch (comicUrl (parseInt id)) = .rejected m → m ≠ "Comic not found" →
      ∃ msg, (getById fetch now s id).1 = .error msg ∧
        startsWith msg.data ("Failed to fetch comic " ++ numberToString (parseInt id)).data =
          true ∧
        msg ≠ "Comic not found") ∧
    (fetch (comicUrl (parseInt id)) = .rejected "Comic not found" →
      (getById fetch now s id).1 = .error "Comic not found") ∧
    (∀ msg, (getById fetch now s id).1 = .error msg →
      (getById fetch now s id).2.log =
        s.log ++ [.cacheGet (comicKey (parseInt id)), .fetch (comicUrl (parseInt id))] ∧
      ∀ k, Store.lookup (getById fetch now s id).2.cache now k = Store.lookup s.cache now k) ∧
    (∀ n : ℕ, 1 ≤ n → n < 10 ^ 21 → id = .num (.fin (n : ℚ)) →
      numberToString (parseInt id) = natToString n) := by
  rw [getById_miss hid hmiss]
  refine ⟨?_, ?_, ?_, ?_, ?_, ?_⟩
  · intro response hf h404
    simp [hf, getByIdTry, h404, getByIdCatch]
  · intro response hf h404 hok
    refine ⟨"Failed to fetch comic " ++ numberToString (parseInt id) ++
      (": " ++ ("Failed to fetch comic " ++ numberToString (parseInt id))), ?_, ?_, ?_⟩
    · have hne :
          "Failed to fetch comic " ++ numberToString (parseInt id) ≠ "Comic not found" := by
        have := failedToFetch_ne (numberToString (parseInt id)) ""
        simpa using this
      simp [hf, getByIdTry, h404, hok, getByIdCatch, hne, String.append_assoc]
    · exact startsWith_string_append _ _
    · exact failedToFetch_ne _ _
  · intro m hf hm
    refine ⟨"Failed to fetch comic " ++ numberToString (parseInt id) ++ (": " ++ m),
      ?_, ?_, ?_⟩
    · simp [hf, getByIdTry, getByIdCatch, hm, String.append_assoc]
    · exact startsWith_string_append _ _
    · exact failedToFetch_ne _ _
  · intro hf
    simp [hf, getByIdTry, getByIdCatch]
  · intro msg hmsg
    cases ht : getByIdTry (parseInt id) (fetch (comicUrl (parseInt id))) with
    | ok c => rw [ht] at hmsg; cases hmsg
    | error m =>
      simp only []
      refine ⟨by simp, ?_⟩
      intro k
      exact lookup_get s.cache now _ k
  · rintro n h1 h21 rfl
    rw [parseInt_nat n h21, numberToString_nat, magToString, if_pos h21]

/-- C2, for comic 614 on an empty cache with a transport failure `Network error`. -/
theorem getById_upstream_failure_witness :
    ∃ msg, (getById (failingUpstream "Network error") 0 emptyState (.num (.fin 614))).1 =
        .error msg ∧
      startsWith msg.data
        ("Failed to fetch comic " ++ numberToString (parseInt (.num (.fin 614)))).data = true ∧
      msg ≠ "Comic not found" :=
  (getById_upstream_failure (failingUpstream "Network error") 0 emptyState (.num (.fin 614))
    (by with_unfolding_all decide) (by with_unfolding_all decide)).2.2.1 "Network error" rfl
    (by decide)

/-- C2 refuted as stated: a transport failure whose message is `Comic not found` makes
`getById(1)` fail with exactly `Comic not found`, which does not start with
`Failed to fetch comic 1`. -/
theorem getById_transport_message_collision :
    (getById (failingUpstream "Comic not found") 0 emptyState (.num (.fin 1))).1 =
      .error "Comic not found" ∧
    startsWith "Comic not found".data "Failed to fetch comic 1".data = false := by
  constructor
  · with_unfolding_all rfl
  · decide

/-! ## The guard of getById -/

theorem invalidId_iff (id : JSVal) :
    invalidId id = false ↔ ∃ n : ℕ, 1 ≤ n ∧ toNumber id = .fin (n : ℚ) := by
  constructor
  · intro h
    simp only [invalidId, Bool.or_eq_false_iff, Bool.not_eq_false', Bool.not_eq_false] at h
    obtain ⟨⟨⟨_, hnan⟩, hlt⟩, hint⟩ := h
    cases hn : toNumber id with
    | nan => simp [isNaN, hn] at hnan
    | inf b => simp [isInteger, hn] at hint
    | fin q =>
      rw [hn] at hlt hint
      simp only [JSNum.lt, decide_eq_false_iff_not, not_lt] at hlt
      simp only [isInteger, decide_eq_true_eq] at hint
      have hq : q = (q.num : ℚ) := by
        have := Rat.num_div_den q
        rw [hint] at this
        simpa using this.symm
      have hnum : 1 ≤ q.num := by
        rw [hq] at hlt
        exact_mod_cast hlt
      have hcast : ((q.num.toNat : ℕ) : ℚ) = q := by
        have h1 : ((q.num.toNat : ℕ) : ℤ) = q.num := Int.toNat_of_nonneg (by omega)
        calc ((q.num.toNat : ℕ) : ℚ)
            = (((q.num.toNat : ℕ) : ℤ) : ℚ) := (Int.cast_natCast _).symm
          _ = (q.num : ℚ) := by rw [h1]
          _ = q := hq.symm
      exact ⟨q.num.toNat, by omega, by rw [hcast]⟩
  · rintro ⟨n, h1, hn⟩
    have h0 : (n : ℚ) ≠ 0 := by
      have : 0 < n := h1
      exact_mod_cast this.ne'
    have hlt : ¬ (n : ℚ) < 1 := by
      have : (1 : ℚ) ≤ n := by exact_mod_cast h1
      linarith
    have htrue : toBoolean id = true := by
      cases id with
      | undefined => simp [toNumber] at hn
      | null =>
        simp only [toNumber, JSNum.fin.injEq] at hn
        exact absurd hn.symm h0
      | bool b =>
        cases b with
        | true => rfl
        | false =>
          simp only [toNumber, JSNum.fin.injEq] at hn
          exact absurd hn.symm h0
      | num m =>
        simp only [toNumber] at hn
        subst hn
        simp [toBoolean, h0]
      | str t =>
        by_cases ht : t = ""
        · subst ht
          have h2 : toNumber (.str "") = .fin 0 := by decide
          rw [h2] at hn
          simp only [JSNum.fin.injEq] at hn
          exact absurd hn.symm h0
        · simp [toBoolean, ht]
      | obj a b => rfl
    simp [invalidId, htrue, isNaN, hn, JSNum.lt, isInteger, hlt]

/-- C1, at the failing inputs. The Number `10^21` passes the guard of `getById`, but
`parseInt` reads its text `1e+21` as 1: the call looks up `comic-1`, fetches
`https://xkcd.com/1/info.0.json` and returns comic 1. The string `1e1` (the number 10) passes
the guard and is looked up as 1, and `true` passes it and is looked up as `NaN`. The inputs
of the unit test (0, -1 and `invalid`) are rejected. -/
theorem getById_exponent_id_fetches_comic_one :
    invalidId (.num (.fin (10 ^ 21))) = false ∧
    parseInt (.num (.fin (10 ^ 21))) = .fin 1 ∧
    (getById (sampleUpstream 10) 0 emptyState (.num (.fin (10 ^ 21)))).2.log =
      [.cacheGet "comic-1", .fetch "https://xkcd.com/1/info.0.json", .cacheSet "comic-1"] ∧
    (getById (sampleUpstream 10) 0 emptyState (.num (.fin (10 ^ 21)))).1 =
      .ok (processComic (sampleComic 1)) ∧
    (invalidId (.str "1e1") = false ∧ toNumber (.str "1e1") = .fin 10 ∧
      parseInt (.str "1e1") = .fin 1) ∧
    (invalidId (.bool true) = false ∧ parseInt (.bool true) = .nan) ∧
    (invalidId (.num (.fin 0)) = true ∧ invalidId (.num (.fin (-1))) = true ∧
      invalidId (.str "invalid") = true) := by
  refine ⟨?_, ?_, ?_, ?_, ⟨?_, ?_, ?_⟩, ⟨?_, ?_⟩, ⟨?_, ?_, ?_⟩⟩
  · with_unfolding_all decide
  · with_unfolding_all decide
  · with_unfolding_all decide
  · with_unfolding_all rfl
  · with_unfolding_all decide
  · with_unfolding_all decide
  · with_unfolding_all decide
  · with_unfolding_all decide
  · with_unfolding_all decide
  · with_unfolding_all decide
  · with_unfolding_all decide
  · with_unfolding_all decide

/-! ## Pagination -/

theorem slice_window {α : Type} (xs : List α) (o l : ℕ) :
    (xs.drop (min o xs.length)).take (min (o + l) xs.length - min o xs.length) =
      (xs.drop o).take l := by
  rcases Nat.lt_or_ge xs.length o with h | h
  · rw [Nat.min_eq_right (by omega), Nat.min_eq_right (by omega),
      List.drop_of_length_le (le_refl _), List.drop_of_length_le (by omega)]
    simp
  · rw [Nat.min_eq_left h]
    rcases Nat.lt_or_ge xs.length (o + l) with h2 | h2
    · rw [Nat.min_eq_right (by omega), List.take_of_length_le (by simp),
        List.take_of_length_le (by simp; omega)]
    · rw [Nat.min_eq_left h2]
      congr 1
      omega

theorem relIndex_nat (len o : ℕ) : relIndex len (.fin (o : ℚ)) = min o len := by
  have h : ¬ ((o : ℚ) < 0) := by
    have : (0 : ℚ) ≤ o := Nat.cast_nonneg o
    linarith
  have ht : truncate (o : ℚ) = (o : ℤ) := by
    simp [truncate, h]
  have h2 : ¬ ((o : ℤ) < 0) := by omega
  simp [relIndex, ht, h2]

/-- The pagination arithmetic of `search` for a page and a limit that are positive integers:
the slice, its length, and the descriptor. -/
theorem paginate_spec (q : String) (matching : List Comic) (p l : ℕ) (hp : 1 ≤ p)
    (hl : 1 ≤ l) :
    (paginate q matching (.fin p) (.fin l)).results = (matching.drop ((p - 1) * l)).take l ∧
    (paginate q matching (.fin p) (.fin l)).results.length =
      min l (matching.length - (p - 1) * l) ∧
    (paginate q matching (.fin p) (.fin l)).total = matching.length ∧
    (paginate q matching (.fin p) (.fin l)).pagination.page = .fin p ∧
    (paginate q matching (.fin p) (.fin l)).pagination.limit = .fin l ∧
    (paginate q matching (.fin p) (.fin l)).pagination.offset = .fin (((p - 1) * l : ℕ) : ℚ) ∧
    (paginate q matching (.fin p) (.fin l)).pagination.totalPages =
      .fin ((⌈(matching.length : ℚ) / l⌉ : ℤ) : ℚ) ∧
    ((paginate q matching (.fin p) (.fin l)).pagination.hasPrev = true ↔ 1 < p) ∧
    ((paginate q matching (.fin p) (.fin l)).pagination.hasNext = true ↔
      (p : ℤ) < ⌈(matching.length : ℚ) / l⌉) := by
  have hoff : ((p : ℚ) + -1) * l = (((p - 1) * l : ℕ) : ℚ) := by
    push_cast [Nat.cast_sub hp]
    ring
  have hstop : ((((p - 1) * l : ℕ) : ℚ) + l) = (((p - 1) * l + l : ℕ) : ℚ) := by
    push_cast
    ring
  have hl0 : (l : ℚ) ≠ 0 := by
    have : 0 < l := hl
    exact_mod_cast this.ne'
  have hlpos : (0 : ℚ) < l := by
    have : 0 < l := hl
    exact_mod_cast this
  have hres : (paginate q matching (.fin p) (.fin l)).results =
      (matching.drop ((p - 1) * l)).take l := by
    simp only [paginate, JSNum.sub, JSNum.neg, JSNum.add, JSNum.mul, slice, hoff, hstop,
      relIndex_nat]
    exact slice_window matching ((p - 1) * l) l
  refine ⟨hres, ?_, rfl, rfl, rfl, ?_, ?_, ?_, ?_⟩
  · rw [hres]
    simp
  · simp only [paginate, JSNum.sub, JSNum.neg, JSNum.add, JSNum.mul, hoff]
  · simp only [paginate, JSNum.div, hl0, if_false, JSNum.ceil]
  · simp only [paginate, JSNum.lt, decide_eq_true_eq]
    exact_mod_cast Iff.rfl
  · simp only [paginate, JSNum.sub, JSNum.neg, JSNum.add, JSNum.mul, JSNum.lt, hoff, hstop,
      decide_eq_true_eq]
    rw [Int.lt_ceil, lt_div_iff₀ hlpos]
    have hpl : (p - 1) * l + l = p * l := by
      have : p = (p - 1) + 1 := by omega
      conv_rhs => rw [this]
      ring
    rw [hpl]
    push_cast
    exact Iff.rfl

/-- For a page and a limit that are integers from 1 up to `10^21`, `search` reads them as they
are and returns the pagination of its matches. -/
theorem search_paginates (fuel : Nat) (toLowerCase : String → String) (fetch : Upstream)
    (now : Nat) (s s1 s2 : State) (q : String) (latest : Comic) (matching : List Comic)
    (p l : ℕ) (hp : p < 10 ^ 21) (hl : l < 10 ^ 21)
    (hq : queryInvalid (.str q) = false) (hlat : getLatest fetch now s = (.ok latest, s1))
    (hm : matchingComics fuel toLowerCase fetch now s1 (toLowerCase q) latest.num =
      some (matching, s2)) :
    search fuel toLowerCase fetch now s (.str q) (.num (.fin (p : ℚ))) (.num (.fin (l : ℚ))) =
      some (.ok (paginate (toLowerCase q) matching (.fin p) (.fin l)), s2) := by
  have h1 : orDefault (.num (.fin (p : ℚ))) (.num (.fin 1)) = .num (.fin (p : ℚ)) := by
    simp [orDefault]
  have h2 : orDefault (.num (.fin (l : ℚ))) (.num (.fin 10)) = .num (.fin (l : ℚ)) := by
    simp [orDefault]
  simp only [search, hq, Bool.false_eq_true, if_false, hlat, toStr, h1, h2,
    parseInt_nat p hp, parseInt_nat l hl, hm, Option.map_some']

theorem paginate_fifteen :
    ((paginate "x" ((List.range 15).map (fun i => processComic (sampleComic i))) (.fin 2)
        (.fin 10)).results.length = 5) ∧
    (paginate "x" ((List.range 15).map (fun i => processComic (sampleComic i))) (.fin 2)
        (.fin 10)).pagination = ⟨.fin 2, .fin 10, .fin 2, false, true, .fin 10⟩ := by
  constructor
  · with_unfolding_all decide
  · with_unfolding_all decide

/-- C8, at the failing input. `search` is called with the page `10^21` and the limit 10 on an
upstream of three comics that all match: `parseInt` reads the page as 1, so the descriptor
reports page 1, offset 0 and no previous page, and the three matches are returned (the claim
gives page `10^21`, a previous page and an empty slice). -/
theorem search_exponent_page_reads_as_one :
    parseInt (.num (.fin (10 ^ 21))) = .fin 1 ∧
    (search 101 asciiLowerCase (sampleUpstream 3) 0 emptyState (.str "comic")
        (.num (.fin (10 ^ 21))) (.num (.fin 10))).map
        (fun out => out.1.toOption.map (fun r => r.pagination)) =
      some (some ⟨.fin 1, .fin 10, .fin 1, false, false, .fin 0⟩) ∧
    (search 101 asciiLowerCase (sampleUpstream 3) 0 emptyState (.str "comic")
        (.num (.fin (10 ^ 21))) (.num (.fin 10))).map
        (fun out => out.1.toOption.map (fun r => r.results.length)) = some (some 3) := by
  refine ⟨?_, ?_, ?_⟩
  · with_unfolding_all decide
  · with_unfolding_all decide
  · with_unfolding_all decide

/-! ## getRandom -/

theorem randomId_bounds (r : ℚ) (num : ℤ) (hnum : 1 ≤ num) (hr0 : 0 ≤ r) (hr1 : r < 1) :
    1 ≤ randomId r num ∧ randomId r num ≤ num := by
  have hn : (0 : ℚ) < num := by exact_mod_cast hnum
  have h0 : 0 ≤ ⌊r * num⌋ := Int.floor_nonneg.mpr (mul_nonneg hr0 hn.le)
  have h1 : ⌊r * num⌋ < num := by
    rw [Int.floor_lt]
    nlinarith
  unfold randomId
  omega

theorem getById_ok_id {fetch : Upstream} {now : Nat} {s : State} {id : JSVal} {comic : Comic}
    (h : (getById fetch now s id).1 = .ok comic)
    (hup : ∀ response data, fetch (comicUrl (parseInt id)) = .resolved response →
      response.json = .ok data → JSNum.fin (data.num : ℚ) = parseInt id)
    (hcache : ∀ cached, Store.lookup s.cache now (comicKey (parseInt id)) = some cached →
      JSNum.fin (cached.id : ℚ) = parseInt id) :
    JSNum.fin (comic.id : ℚ) = parseInt id := by
  have hid := invalidId_of_ok h
  rcases lookup_eq_none_or s.cache now (comicKey (parseInt id)) with
    ⟨hmiss, _⟩ | ⟨e, _, _, _, hhit⟩
  · rw [getById_miss hid hmiss] at h
    cases hf : fetch (comicUrl (parseInt id)) with
    | rejected m => simp [hf, getByIdTry] at h
    | resolved response =>
      cases hj : response.json with
      | error m =>
        simp only [hf, getByIdTry, hj] at h
        split_ifs at h
      | ok data =>
        simp only [hf, getByIdTry, hj] at h
        split_ifs at h
        simp only [Except.ok.injEq] at h
        subst h
        exact hup response data hf hj
  · rw [getById_hit hid hhit] at h
    simp only [Except.ok.injEq] at h
    subst h
    exact hcache e.v hhit

/-- C5, as the code has it. For a latest record with `num` at least 1 and a draw `r` in
`[0, 1)`, `getRandom` selects the id `floor(r * num) + 1`, which lies in `[1, num]`, and
hands it to `getById`: it returns what that call returns, with its message wrapped on
failure. The record returned is whatever the cache or the upstream holds for the id looked
up; when both hold under that id a record with that id, the record returned has an id in
`[1, num]` (which is `[1, latest.id]` when the latest record has `id = num`, as every record
built by `processComic` has). -/
theorem getRandom_selects_in_range (fetch : Upstream) (now : Nat) (r : ℚ) (s s1 : State)
    (latest : Comic) (hl : getLatest fetch now s = (.ok latest, s1))
    (hnum : 1 ≤ latest.num) (hr0 : 0 ≤ r) (hr1 : r < 1) :
    randomId r latest.num = ⌊r * latest.num⌋ + 1 ∧
    1 ≤ randomId r latest.num ∧ randomId r latest.num ≤ latest.num ∧
    getRandom fetch now r s =
      (match getById fetch now s1 (.num (.fin (randomId r latest.num))) with
        | (.error m, s2) => (.error ("Failed to fetch random comic: " ++ m), s2)
        | (.ok comic, s2) => (.ok comic, s2)) ∧
    (∀ comic, (getRandom fetch now r s).1 = .ok comic →
      (getById fetch now s1 (.num (.fin (randomId r latest.num)))).1 = .ok comic) ∧
    ((∀ response data,
        fetch (comicUrl (parseInt (.num (.fin (randomId r latest.num))))) =
          .resolved response →
        response.json = .ok data →
        JSNum.fin (data.num : ℚ) = parseInt (.num (.fin (randomId r latest.num)))) →
      (∀ cached,
        Store.lookup s1.cache now
          (comicKey (parseInt (.num (.fin (randomId r latest.num))))) = some cached →
        JSNum.fin (cached.id : ℚ) = parseInt (.num (.fin (randomId r latest.num)))) →
      ∀ comic, (getRandom fetch now r s).1 = .ok comic →
        1 ≤ comic.id ∧ comic.id ≤ latest.num ∧ (latest.id = latest.num → comic.id ≤ latest.id))
    := by
  obtain ⟨hlo, hhi⟩ := randomId_bounds r latest.num hnum hr0 hr1
  have hdel : getRandom fetch now r s =
      (match getById fetch now s1 (.num (.fin (randomId r latest.num))) with
        | (.error m, s2) => (.error ("Failed to fetch random comic: " ++ m), s2)
        | (.ok comic, s2) => (.ok comic, s2)) := by
    simp only [getRandom, hl]
  have hok : ∀ comic, (getRandom fetch now r s).1 = .ok comic →
      (getById fetch now s1 (.num (.fin (randomId r latest.num)))).1 = .ok comic := by
    intro comic h
    rw [hdel] at h
    cases hg : getById fetch now s1 (.num (.fin (randomId r latest.num))) with
    | mk res s2 =>
      rw [hg] at h
      cases res with
      | error m => cases h
      | ok c => exact h
  refine ⟨rfl, hlo, hhi, hdel, hok, ?_⟩
  intro hup hcache comic hc
  have hid := getById_ok_id (hok comic hc) hup hcache
  have hcast :
      ((randomId r latest.num : ℤ) : ℚ) = (((randomId r latest.num).toNat : ℕ) : ℚ) := by
    have h1 : (((randomId r latest.num).toNat : ℕ) : ℤ) = randomId r latest.num :=
      Int.toNat_of_nonneg (by omega)
    calc ((randomId r latest.num : ℤ) : ℚ)
        = ((((randomId r latest.num).toNat : ℕ) : ℤ) : ℚ) := by rw [h1]
      _ = (((randomId r latest.num).toNat : ℕ) : ℚ) := Int.cast_natCast _
  rw [hcast] at hid
  have hbound : 1 ≤ comic.id ∧ comic.id ≤ latest.num := by
    rcases Nat.lt_or_ge (randomId r latest.num).toNat (10 ^ 21) with hsmall | hbig
    · rw [parseInt_nat _ hsmall] at hid
      simp only [JSNum.fin.injEq] at hid
      have : comic.id = ((randomId r latest.num).toNat : ℤ) := by exact_mod_cast hid
      omega
    · obtain ⟨d, hd1, hd10, hd⟩ := parseInt_nat_large _ hbig
      rw [hd] at hid
      simp only [JSNum.fin.injEq] at hid
      have : comic.id = (d : ℤ) := by exact_mod_cast hid
      have h21 : (10 : ℕ) ≤ 10 ^ 21 := by norm_num
      omega
  exact ⟨hbound.1, hbound.2, fun h => by rw [h]; exact hbound.2⟩

/-- C5, on the sample upstream of ten comics with the draw 1/2: comic 6 is selected and
returned. -/
theorem getRandom_selects_in_range_witness :
    randomId (1 / 2) (processComic (sampleComic 10)).num = 6 ∧
    ∀ comic, (getRandom (sampleUpstream 10) 0 (1 / 2) emptyState).1 = .ok comic →
      1 ≤ comic.id ∧ comic.id ≤ (processComic (sampleComic 10)).num ∧
        ((processComic (sampleComic 10)).id = (processComic (sampleComic 10)).num →
          comic.id ≤ (processComic (sampleComic 10)).id) := by
  have h := getRandom_selects_in_range (sampleUpstream 10) 0 (1 / 2) emptyState
    (getLatest (sampleUpstream 10) 0 emptyState).2 (processComic (sampleComic 10))
    (by with_unfolding_all rfl) (by decide) (by norm_num) (by norm_num)
  have hr : randomId (1 / 2) (processComic (sampleComic 10)).num = 6 := by
    with_unfolding_all decide
  refine ⟨hr, h.2.2.2.2.2 ?_ ?_⟩
  · intro response data hf hj
    rw [hr] at hf ⊢
    have hurl : sampleUpstream 10 (comicUrl (parseInt (.num (.fin ((6 : ℤ) : ℚ))))) =
        okResponse (sampleComic 6) := by with_unfolding_all rfl
    rw [hurl] at hf
    simp only [okResponse, FetchOutcome.resolved.injEq] at hf
    subst hf
    simp only [Except.ok.injEq] at hj
    subst hj
    with_unfolding_all decide
  · intro cached hcached
    rw [hr] at hcached
    have hnone : Store.lookup (getLatest (sampleUpstream 10) 0 emptyState).2.cache 0
        (comicKey (parseInt (.num (.fin ((6 : ℤ) : ℚ))))) = none := by
      with_unfolding_all decide
    rw [hnone] at hcached
    cases hcached

/-- C5 refuted as stated: with an upstream that, as the mock of the unit test does, answers
whatever id is drawn with one fixed comic (here the latest comic has number 1000 and every
other request is answered with comic 1234), `getRandom` succeeds with a record whose id is
1234, outside `[1, 1000]`. -/
theorem getRandom_returns_what_upstream_serves :
    (getLatest mockedUpstream 0 emptyState).1.toOption.map (fun c => c.id) = some 1000 ∧
    (getRandom mockedUpstream 0 0 emptyState).1.toOption.map (fun c => c.id) = some 1234 := by
  constructor
  · with_unfolding_all decide
  · with_unfolding_all decide

/-! ## The loop counter of search -/

theorem roundNat_small (n : ℕ) (h : n < 2 ^ 53) : roundNat n = n := by
  have he : excessBits n n = 0 := by
    cases n with
    | zero => rfl
    | succ k => rw [excessBits, if_pos h]
  simp [roundNat, he, Nat.mod_one]

theorem toBinary64_exact (z : ℤ) (h0 : 0 ≤ z) (h : z ≤ 2 ^ 53) : toBinary64 z = z := by
  have hneg : ¬ z < 0 := by omega
  simp only [toBinary64, hneg, if_false]
  rcases Nat.lt_or_ge z.natAbs (2 ^ 53) with hlt | hge
  · rw [roundNat_small _ hlt]
    omega
  · have : z.natAbs = 2 ^ 53 := by omega
    rw [this]
    have hr : roundNat (2 ^ 53) = 2 ^ 53 := by decide
    rw [hr]
    omega

theorem toBinary64_nonpos (z : ℤ) (h : z ≤ 0) : toBinary64 z ≤ 0 := by
  unfold toBinary64
  split_ifs with hz
  · omega
  · have : z = 0 := by omega
    subst this
    decide

theorem countUp_mem (n : ℕ) (lo k : ℤ) : k ∈ countUp n lo ↔ lo ≤ k ∧ k < lo + n := by
  induction n generalizing lo with
  | zero =>
    simp only [countUp, List.not_mem_nil, false_iff]
    push_cast
    omega
  | succ n ih =>
    simp only [countUp, List.mem_cons, ih]
    push_cast
    omega

theorem countUp_pairwise (n : ℕ) (lo : ℤ) : (countUp n lo).Pairwise (· < ·) := by
  induction n generalizing lo with
  | zero => simp [countUp]
  | succ n ih =>
    simp only [countUp, List.pairwise_cons]
    refine ⟨?_, ih (lo + 1)⟩
    intro k hk
    have := (countUp_mem n (lo + 1) k).mp hk
    omega

theorem countUp_length (n : ℕ) (lo : ℤ) : (countUp n lo).length = n := by
  induction n generalizing lo with
  | zero => rfl
  | succ n ih => simp [countUp, ih]

/-- Below `2^53` the loop of `search` ends, after visiting every id from the first to the
last, once it is given one more test of its condition than there are ids. -/
theorem forIds_exact (fuel : ℕ) (lo hi : ℤ) (h0 : 0 ≤ lo) (hhi : hi < 2 ^ 53)
    (hfuel : (hi + 1 - lo).toNat < fuel) :
    forIds fuel lo hi = some (countUp (hi + 1 - lo).toNat lo) := by
  induction fuel generalizing lo with
  | zero => omega
  | succ fuel ih =>
    simp only [forIds]
    split_ifs with hle
    · rw [toBinary64_exact (lo + 1) (by omega) (by omega),
        ih (lo + 1) (by omega) (by omega)]
      have hn : (hi + 1 - lo).toNat = (hi + 1 - (lo + 1)).toNat + 1 := by omega
      rw [hn]
      rfl
    · have hn : (hi + 1 - lo).toNat = 0 := by omega
      rw [hn]
      rfl

theorem searchIds_exact (fuel : ℕ) (maxId : ℤ) (hmax : maxId < 2 ^ 53) (hfuel : 100 < fuel) :
    searchIds fuel maxId =
      some (countUp (maxId + 1 - max 1 (maxId - 99)).toNat (max 1 (maxId - 99))) := by
  have hstart : max 1 (toBinary64 (maxId - 99)) = max 1 (maxId - 99) := by
    rcases Int.lt_or_le (maxId - 99) 0 with hneg | hpos
    · have := toBinary64_nonpos (maxId - 99) (by omega)
      omega
    · rw [toBinary64_exact (maxId - 99) hpos (by omega)]
  rw [searchIds, hstart]
  exact forIds_exact fuel _ maxId (by omega) hmax (by omega)

theorem forIds_none_of_step (id maxId : ℤ) (h : id ≤ maxId)
    (hnext : ∀ fuel, forIds fuel (toBinary64 (id + 1)) maxId = none) :
    ∀ fuel, forIds fuel id maxId = none := by
  intro fuel
  cases fuel with
  | zero => rfl
  | succ fuel => simp [forIds, h, hnext fuel]

/-- At `2^53` the counter no longer advances: `2^53 + 1` rounds back to `2^53`, and the loop
does not end, whatever the number of tests it is given. -/
theorem forIds_stuck : ∀ fuel, forIds fuel (2 ^ 53) (2 ^ 53) = none := by
  intro fuel
  induction fuel with
  | zero => rfl
  | succ fuel ih =>
    have hr : toBinary64 (2 ^ 53 + 1) = 2 ^ 53 := by decide
    rw [forIds, if_pos (le_refl _), hr, ih]
    rfl

theorem forIds_diverges (k : ℕ) (hk : k ≤ 99) :
    ∀ fuel, forIds fuel (2 ^ 53 - (k : ℤ)) (2 ^ 53) = none := by
  induction k with
  | zero => simpa using forIds_stuck
  | succ k ih =>
    apply forIds_none_of_step _ _ (by push_cast; omega)
    have hstep : toBinary64 (2 ^ 53 - ((k + 1 : ℕ) : ℤ) + 1) = 2 ^ 53 - (k : ℤ) := by
      rw [toBinary64_exact _ (by push_cast; omega) (by push_cast; omega)]
      push_cast
      omega
    rw [hstep]
    exact ih (by omega)

theorem searchIds_diverges : ∀ fuel, searchIds fuel (2 ^ 53) = none := by
  intro fuel
  have hstart : max 1 (toBinary64 ((2 : ℤ) ^ 53 - 99)) = 2 ^ 53 - ((99 : ℕ) : ℤ) := by decide
  rw [searchIds, hstart]
  exact forIds_diverges 99 (le_refl _) fuel

/-! ## Concurrent calls of getById -/

theorem getByIdStart_fst_congr (fetch : Upstream) (now : Nat) (s s0 : State) (id : JSVal)
    (h : ∀ k, Store.lookup s.cache now k = Store.lookup s0.cache now k) :
    (getByIdStart fetch now s id).1 = (getByIdStart fetch now s0 id).1 := by
  have hk := h (comicKey (parseInt id))
  unfold Store.lookup at hk
  unfold getByIdStart
  by_cases hv : invalidId id = true
  · simp [hv]
  · simp only [hv, Bool.false_eq_true, if_false, hk]
    cases (s0.cache.get now (comicKey (parseInt id))).1 <;> rfl

theorem getByIdStart_lookup (fetch : Upstream) (now : Nat) (s : State) (id : JSVal)
    (k : String) :
    Store.lookup (getByIdStart fetch now s id).2.cache now k = Store.lookup s.cache now k := by
  unfold getByIdStart
  by_cases hv : invalidId id = true
  · simp [hv]
  · simp only [hv, Bool.false_eq_true, if_false]
    cases (s.cache.get now (comicKey (parseInt id))).1 <;>
      exact lookup_get s.cache now _ k

theorem startAll_fst (fetch : Upstream) (now : Nat) (s0 : State) (ids : List ℤ) :
    ∀ s : State, (∀ k, Store.lookup s.cache now k = Store.lookup s0.cache now k) →
      (startAll fetch now s ids).1 =
        ids.map (fun (id : ℤ) => (getByIdStart fetch now s0 (.num (.fin (id : ℚ)))).1) := by
  induction ids with
  | nil => intro s _; rfl
  | cons id ids ih =>
    intro s h
    simp only [startAll, List.map_cons]
    rw [getByIdStart_fst_congr fetch now s s0 _ h]
    rw [ih _ (fun k => (getByIdStart_lookup fetch now s _ k).trans (h k))]

theorem getByIdFinish_fst (now : Nat) (p : Pending) (s s0 : State) :
    (getByIdFinish now p s).1 = (getByIdFinish now p s0).1 := by
  cases p with
  | settled r => rfl
  | awaiting n o =>
    simp only [getByIdFinish]
    cases getByIdTry n o <;> rfl

theorem finishAll_fst (fetch : Upstream) (now : Nat) (s0 : State) (ids : List ℤ) :
    ∀ s : State,
      (finishAll now s
          (ids.map (fun (id : ℤ) => (getByIdStart fetch now s0 (.num (.fin (id : ℚ)))).1))).1 =
        ids.map (fun id => fetched fetch now s0 id) := by
  induction ids with
  | nil => intro s; rfl
  | cons id ids ih =>
    intro s
    simp only [List.map_cons, finishAll]
    rw [ih]
    congr 1
    unfold fetched getById
    rw [getByIdFinish_fst now _ s (getByIdStart fetch now s0 (.num (.fin (id : ℚ)))).2]

/-! ## The matches of search -/

theorem includes_empty_left (x : String) (h : x ≠ "") : includes "" x = false := by
  have hx : x.data ≠ [] := by
    intro hd
    apply h
    apply String.ext
    simpa using hd
  simp [includes, includesChars, hx]

theorem comicMatches_iff (toLowerCase : String → String) (q : String)
    (h0 : toLowerCase "" = "") (hq : toLowerCase q ≠ "") (comic : Comic) :
    comicMatches toLowerCase (toLowerCase q) comic =
      decide (containsIgnoringCase toLowerCase q comic) := by
  have key : ∀ t : String,
      (decide (t ≠ "") && includes (toLowerCase t) (toLowerCase q)) =
        includes (toLowerCase t) (toLowerCase q) := by
    intro t
    by_cases ht : t = ""
    · subst ht
      simp [h0, includes_empty_left _ hq]
    · simp [ht]
  simp only [comicMatches, key, containsIgnoringCase]
  rw [Bool.eq_iff_iff]
  simp [or_assoc]

theorem matchesOf_fst (toLowerCase : String → String) (fetch : Upstream) (now : Nat)
    (s : State) (q : String) (h0 : toLowerCase "" = "") (hq : toLowerCase q ≠ "")
    (ids : List ℤ) :
    (matchesOf toLowerCase fetch now s (toLowerCase q) ids).1 =
      ids.filterMap (fun id =>
        (fetched fetch now s id).filter
          (fun c => decide (containsIgnoringCase toLowerCase q c))) := by
  simp only [matchesOf]
  rw [startAll_fst fetch now s _ s (fun _ => rfl), finishAll_fst, List.filterMap_map,
    List.filter_filterMap]
  congr 1
  funext id
  simp only [Function.comp]
  cases fetched fetch now s id with
  | none => rfl
  | some c => simp [Option.filter, comicMatches_iff toLowerCase q h0 hq c]

theorem fetched_id (fetch : Upstream) (now : Nat) (s : State) (k : ℤ) (c : Comic)
    (h1 : 1 ≤ k) (h21 : k < 10 ^ 21) (hc : fetched fetch now s k = some c)
    (hup : ∀ response data, fetch (comicUrl (.fin (k : ℚ))) = .resolved response →
      response.json = .ok data → data.num = k)
    (hcache : ∀ cached, Store.lookup s.cache now (comicKey (.fin (k : ℚ))) = some cached →
      cached.id = k) :
    c.id = k := by
  have hk : ((k.toNat : ℕ) : ℤ) = k := Int.toNat_of_nonneg (by omega)
  have hcast : (k : ℚ) = ((k.toNat : ℕ) : ℚ) := by
    calc (k : ℚ) = (((k.toNat : ℕ) : ℤ) : ℚ) := by rw [hk]
      _ = ((k.toNat : ℕ) : ℚ) := Int.cast_natCast _
  have hp : parseInt (.num (.fin (k : ℚ))) = .fin (k : ℚ) := by
    rw [hcast]
    exact parseInt_nat k.toNat (by omega)
  have hok : (getById fetch now s (.num (.fin (k : ℚ)))).1 = .ok c := by
    unfold fetched at hc
    cases hg : (getById fetch now s (.num (.fin (k : ℚ)))).1 with
    | error m => rw [hg] at hc; cases hc
    | ok c2 =>
      rw [hg] at hc
      simp only [Option.some.injEq] at hc
      rw [hc]
  have hid := getById_ok_id hok
    (by
      intro response data hf hj
      rw [hp] at hf ⊢
      rw [hup response data hf hj])
    (by
      intro cached hl
      rw [hp] at hl ⊢
      rw [hcache cached hl])
  rw [hp] at hid
  simp only [JSNum.fin.injEq] at hid
  exact_mod_cast hid

theorem filterMap_ids_sublist (ids : List ℤ) (f : ℤ → Option Comic)
    (hf : ∀ k ∈ ids, ∀ c, f k = some c → c.id = k) :
    ((ids.filterMap f).map (fun c => c.id)).Sublist ids := by
  induction ids with
  | nil => simp
  | cons k ids ih =>
    have ih2 := ih (fun x hx => hf x (List.mem_cons_of_mem k hx))
    cases hk : f k with
    | none =>
      rw [List.filterMap_cons_none hk]
      exact List.Sublist.cons k ih2
    | some c =>
      rw [List.filterMap_cons_some hk, List.map_cons, hf k (List.mem_cons_self k ids) c hk]
      exact List.Sublist.cons₂ k ih2

/-- C7, as the code has it. For a valid query and a latest record whose number is below
`2^53`, `search` returns (its loop ends within 101 tests of its condition), and its matches
are the records that `getById` resolves to for the ids from `max(1, latest.num - 99)` to
`latest.num`, in ascending order of the ids requested, that contain the query, ignoring case,
in their title, transcript or alternative text. An id whose `getById` fails is left out and
`search` still succeeds, with `total` the number of matches. The records are whatever the
cache or the upstream holds for the ids requested: when both hold under each id of the window
a record with that id, the ids of the matches are ascending and lie in the window. With the
latest id 10, comics 1 to 10 and only comic 5 titled with the query, `total` is 1 and the
results are comic 5. (`toLowerCase` maps the empty string to itself and a non-empty string to
a non-empty one.) -/
theorem search_matches_window :
    (∀ (fuel : Nat) (toLowerCase : String → String) (fetch : Upstream) (now : Nat)
        (s s1 : State) (q : String) (page limit : JSVal) (latest : Comic),
      toLowerCase "" = "" →
      toLowerCase q ≠ "" →
      queryInvalid (.str q) = false →
      getLatest fetch now s = (.ok latest, s1) →
      latest.num < 2 ^ 53 →
      100 < fuel →
      ∃ (ids : List ℤ) (matching : List Comic) (s2 : State) (res : SearchResult),
        ids.Pairwise (· < ·) ∧
        (∀ k, k ∈ ids ↔ max 1 (latest.num - 99) ≤ k ∧ k ≤ latest.num) ∧
        ids.length ≤ 100 ∧
        matching = ids.filterMap (fun id =>
          (fetched fetch now s1 id).filter
            (fun c => decide (containsIgnoringCase toLowerCase q c))) ∧
        matchingComics fuel toLowerCase fetch now s1 (toLowerCase q) latest.num =
          some (matching, s2) ∧
        search fuel toLowerCase fetch now s (.str q) page limit = some (.ok res, s2) ∧
        res.query = toLowerCase q ∧
        res.total = matching.length ∧
        ((∀ k ∈ ids, ∀ response data,
            fetch (comicUrl (.fin (k : ℚ))) = .resolved response →
            response.json = .ok data → data.num = k) →
          (∀ k ∈ ids, ∀ cached,
            Store.lookup s1.cache now (comicKey (.fin (k : ℚ))) = some cached →
            cached.id = k) →
          (matching.map (fun c => c.id)).Pairwise (· < ·) ∧
          ∀ c ∈ matching, max 1 (latest.num - 99) ≤ c.id ∧ c.id ≤ latest.num)) ∧
    ((search 101 asciiLowerCase (sampleUpstream 10) 0 emptyState (.str "python")
        (.num (.fin 1)) (.num (.fin 10))).map
        (fun out => out.1.toOption.map (fun r => (r.total, r.results))) =
      some (some (1, [processComic (sampleComic 5)]))) := by
  constructor
  · intro fuel toLowerCase fetch now s s1 q page limit latest h0 hlow hq hl hmax hfuel
    have hids := searchIds_exact fuel latest.num hmax hfuel
    have hmem : ∀ k, k ∈ countUp (latest.num + 1 - max 1 (latest.num - 99)).toNat
        (max 1 (latest.num - 99)) ↔ max 1 (latest.num - 99) ≤ k ∧ k ≤ latest.num := by
      intro k
      rw [countUp_mem]
      constructor
      · rintro ⟨h1, h2⟩
        refine ⟨h1, ?_⟩
        by_contra hn
        omega
      · rintro ⟨h1, h2⟩
        refine ⟨h1, ?_⟩
        rw [Int.toNat_of_nonneg (by omega)]
        omega
    have hmatch := matchesOf_fst toLowerCase fetch now s1 q h0 hlow
      (countUp (latest.num + 1 - max 1 (latest.num - 99)).toNat (max 1 (latest.num - 99)))
    have hmc : matchingComics fuel toLowerCase fetch now s1 (toLowerCase q) latest.num =
        some ((matchesOf toLowerCase fetch now s1 (toLowerCase q)
            (countUp (latest.num + 1 - max 1 (latest.num - 99)).toNat
              (max 1 (latest.num - 99)))).1,
          (matchesOf toLowerCase fetch now s1 (toLowerCase q)
            (countUp (latest.num + 1 - max 1 (latest.num - 99)).toNat
              (max 1 (latest.num - 99)))).2) := by
      simp only [matchingComics, hids, Option.map_some']
    refine ⟨_, _, _,
      paginate (toLowerCase q)
        (matchesOf toLowerCase fetch now s1 (toLowerCase q)
          (countUp (latest.num + 1 - max 1 (latest.num - 99)).toNat
            (max 1 (latest.num - 99)))).1
        (parseInt (orDefault page (.num (.fin 1))))
        (parseInt (orDefault limit (.num (.fin 10)))),
      countUp_pairwise _ _, hmem, ?_, hmatch, hmc, ?_, rfl, rfl, ?_⟩
    · rw [countUp_length]
      omega
    · simp only [search, hq, Bool.false_eq_true, if_false, hl, toStr, hmc, Option.map_some']
    · intro hup hcache
      have hf : ∀ k ∈ countUp (latest.num + 1 - max 1 (latest.num - 99)).toNat
          (max 1 (latest.num - 99)), ∀ c,
          (fetched fetch now s1 k).filter
            (fun c => decide (containsIgnoringCase toLowerCase q c)) = some c → c.id = k := by
        intro k hk c hc
        have hk2 := (hmem k).mp hk
        have hfk : fetched fetch now s1 k = some c := by
          cases hfe : fetched fetch now s1 k with
          | none => rw [hfe] at hc; cases hc
          | some c2 =>
            rw [hfe] at hc
            simp only [Option.filter] at hc
            split_ifs at hc
            rw [hc]
        have h21 : (2 : ℤ) ^ 53 < 10 ^ 21 := by norm_num
        exact fetched_id fetch now s1 k c (by omega) (by omega) hfk (hup k hk) (hcache k hk)
      have hsub := filterMap_ids_sublist _ _ hf
      rw [hmatch]
      refine ⟨(countUp_pairwise _ _).sublist hsub, ?_⟩
      intro c hc
      have : c.id ∈ countUp (latest.num + 1 - max 1 (latest.num - 99)).toNat
          (max 1 (latest.num - 99)) :=
        hsub.subset (List.mem_map_of_mem (fun c => c.id) hc)
      exact (hmem c.id).mp this
  · with_unfolding_all decide

/-- C7, on the sample upstream of two comics, which serves comic `k` under the id `k`, and an
empty cache: `search` returns, and the ids of its matches are ascending and lie in the
window. -/
theorem search_matches_window_witness :
    ∃ (matching : List Comic) (s2 : State) (res : SearchResult),
      search 101 asciiLowerCase (sampleUpstream 2) 0 emptyState (.str "comic") .undefined
        .undefined = some (.ok res, s2) ∧
      res.total = matching.length ∧
      (matching.map (fun c => c.id)).Pairwise (· < ·) ∧
      ∀ c ∈ matching, max 1 ((processComic (sampleComic 2)).num - 99) ≤ c.id ∧
        c.id ≤ (processComic (sampleComic 2)).num := by
  obtain ⟨ids, matching, s2, res, _, hmem, _, _, _, hs, _, ht, hids⟩ :=
    search_matches_window.1 101 asciiLowerCase (sampleUpstream 2) 0 emptyState
      (getLatest (sampleUpstream 2) 0 emptyState).2 "comic" .undefined .undefined
      (processComic (sampleComic 2)) rfl (by decide) (by decide) (by with_unfolding_all rfl)
      (by decide) (by decide)
  have hk12 : ∀ k ∈ ids, k = 1 ∨ k = 2 := by
    intro k hk
    have h := (hmem k).mp hk
    have h1 : max 1 ((processComic (sampleComic 2)).num - 99) = 1 := by decide
    have h2 : (processComic (sampleComic 2)).num = 2 := by decide
    rw [h1, h2] at h
    omega
  refine ⟨matching, s2, res, hs, ht, hids ?_ ?_⟩
  · intro k hk response data hf hj
    rcases hk12 k hk with rfl | rfl
    · have hurl : sampleUpstream 2 (comicUrl (.fin ((1 : ℤ) : ℚ))) =
          okResponse (sampleComic 1) := by with_unfolding_all rfl
      rw [hurl] at hf
      simp only [okResponse, FetchOutcome.resolved.injEq] at hf
      subst hf
      simp only [Except.ok.injEq] at hj
      subst hj
      decide
    · have hurl : sampleUpstream 2 (comicUrl (.fin ((2 : ℤ) : ℚ))) =
          okResponse (sampleComic 2) := by with_unfolding_all rfl
      rw [hurl] at hf
      simp only [okResponse, FetchOutcome.resolved.injEq] at hf
      subst hf
      simp only [Except.ok.injEq] at hj
      subst hj
      decide
  · intro k hk cached hc
    rcases hk12 k hk with rfl | rfl
    · have hnone : Store.lookup (getLatest (sampleUpstream 2) 0 emptyState).2.cache 0
          (comicKey (.fin ((1 : ℤ) : ℚ))) = none := by with_unfolding_all decide
      rw [hnone] at hc
      cases hc
    · have hnone : Store.lookup (getLatest (sampleUpstream 2) 0 emptyState).2.cache 0
          (comicKey (.fin ((2 : ℤ) : ℚ))) = none := by with_unfolding_all decide
      rw [hnone] at hc
      cases hc

/-- C7 refuted as stated. With an upstream that answers every request for a comic with
comic 7 while the latest comic has number 3, `search` returns three matches whose ids are
7, 7 and 7: not the ids 1 to 3 of the window, and not ascending. And with a latest comic of
number `2^53`, the loop counter stops advancing at `2^53` and `search` never returns. -/
theorem search_returns_what_upstream_serves :
    ((search 101 asciiLowerCase (constantUpstream 3 7) 0 emptyState (.str "comic")
        .undefined .undefined).map
        (fun out => out.1.toOption.map (fun r => (r.total, r.results.map (fun c => c.id)))) =
      some (some (3, [7, 7, 7]))) ∧
    (∀ fuel, search fuel asciiLowerCase (constantUpstream (2 ^ 53) 1) 0 emptyState
      (.str "comic") .undefined .undefined = none) := by
  constructor
  · with_unfolding_all decide
  · intro fuel
    have hq : queryInvalid (.str "comic") = false := by decide
    have hl : getLatest (constantUpstream (2 ^ 53) 1) 0 emptyState =
        (.ok (processComic (sampleComic (2 ^ 53))),
          (getLatest (constantUpstream (2 ^ 53) 1) 0 emptyState).2) := by
      with_unfolding_all rfl
    have hn : (processComic (sampleComic (2 ^ 53))).num = 2 ^ 53 := by
      simp [processComic, sampleComic]
    rw [search]
    simp only [hq, Bool.false_eq_true, if_false]
    rw [hl]
    simp only [matchingComics, hn, searchIds_diverges fuel, Option.map_none']

end XKCDService
